import Mathlib

/-!
Shallow embedding of the rpi-matrix frame-processing core (AppCore and the
ambient procedural generators) together with proofs of its specified
properties.

Modelling conventions:
- cv::Mat frames (CV_8UC3, BGR) become the `Frame` structure: a rows/cols
  header plus row-major pixel data.  cv::Mat::empty() is total()==0, i.e.
  rows*cols = 0.
- C++ float/double quantities that the properties mention exactly
  (transition alpha, vein timers, link positions) are embedded as `ℚ`.
- External OpenCV computations that the core only consumes (the MOG2
  background subtractor's mask, findContours/contourArea, rasterisation of
  draw calls, cv::resize, transcendental math) are abstracted as explicit
  function parameters ("oracles"); everything the repository's own code
  computes is translated directly.
- OpenCV calls that throw cv::Exception on violated preconditions
  (cv::addWeighted with differently-sized operands) are embedded in
  `Except CvError`.
-/

/-- Pixel in BGR channel order, one natural number per 8-bit channel. -/
abbrev Pix := Nat × Nat × Nat

/-- Shallow model of a cv::Mat holding CV_8UC3 data: a size header plus
row-major pixel rows. -/
structure Frame where
  rows : Nat
  cols : Nat
  data : List (List Pix)
deriving DecidableEq

/-- cv::Mat::empty(): true when the matrix has no pixels. -/
def Frame.isEmpty (f : Frame) : Bool :=
  f.rows == 0 || f.cols == 0

/-- cv::Mat::zeros(r, c, CV_8UC3). -/
def Frame.zeros (r c : Nat) : Frame :=
  ⟨r, c, List.replicate r (List.replicate c (0, 0, 0))⟩

/-- Errors with which modelled OpenCV calls can throw cv::Exception. -/
inductive CvError
  | sizeMismatch
deriving DecidableEq

/-! ## Panel slicing (AppCore::processMultiPanel, EXTEND mode)

From src/src/app/app_core.cpp: `int panel_width = in_bgr.cols / num_panels_;`
and per panel `x_start = i * panel_width;
x_end = (i == num_panels_ - 1) ? in_bgr.cols : (i + 1) * panel_width;`. -/

/-- Left column (inclusive) of panel i's region in EXTEND mode. -/
def panelXStart (cols numPanels i : Nat) : Nat :=
  i * (cols / numPanels)

/-- Right column (exclusive) of panel i's region in EXTEND mode; the last
panel extends to the full frame width. -/
def panelXEnd (cols numPanels i : Nat) : Nat :=
  if i = numPanels - 1 then cols else (i + 1) * (cols / numPanels)

/-! ## Auto-cycling controller (AppCore::updateAutoCycling)

Direct translation of src/src/app/app_core.cpp lines 947-1001 and the
constants in src/include/app/app_core.h.  `transition_alpha_` (a C++ float
computed as `1.0f - remaining / TRANSITION_FRAMES`) is embedded as the exact
rational of that formula.  `rand()` is passed in as one natural number per
call. -/

def TRANSITION_FRAMES : Nat := 30

def MIN_CYCLE_SECONDS : Nat := 3

def MAX_CYCLE_SECONDS : Nat := 7

/-- AppCore::getRandomCycleInterval with the rand() result passed in:
random seconds in [MIN_CYCLE_SECONDS, MAX_CYCLE_SECONDS] converted to frames
at 30 fps. -/
def getRandomCycleInterval (rng : Nat) : Nat :=
  (MIN_CYCLE_SECONDS + rng % (MAX_CYCLE_SECONDS - MIN_CYCLE_SECONDS + 1)) * 30

/-- Auto-cycling state of AppCore (the fields of app_core.h lines 120-127
that AppCore::updateAutoCycling reads or writes). -/
structure CycleState where
  displayMode : Int
  autoCyclingEnabled : Bool
  cycleFrameCounter : Nat
  framesUntilNextMode : Nat
  transitionFramesRemaining : Nat
  previousMode : Int
  transitionAlpha : ℚ
deriving DecidableEq

/-- AppCore::updateAutoCycling, one per-frame update. -/
def updateAutoCycling (rng : Nat) (s : CycleState) : CycleState :=
  if !s.autoCyclingEnabled then s
  else
    let s1 := { s with cycleFrameCounter := s.cycleFrameCounter + 1 }
    if s1.transitionFramesRemaining > 0 then
      let r := s1.transitionFramesRemaining - 1
      { s1 with
          transitionFramesRemaining := r
          transitionAlpha := 1 - (r : ℚ) / (TRANSITION_FRAMES : ℚ) }
    else
      let s2 :=
        if s1.framesUntilNextMode = 0 then
          { s1 with framesUntilNextMode := getRandomCycleInterval rng }
        else s1
      if s2.cycleFrameCounter ≥ s2.framesUntilNextMode then
        { s2 with
            previousMode := s2.displayMode
            displayMode := s2.displayMode.tmod 8 + 1
            transitionFramesRemaining := TRANSITION_FRAMES
            transitionAlpha := 0
            cycleFrameCounter := 0
            framesUntilNextMode := getRandomCycleInterval rng }
      else s2

/-- Iterated per-frame auto-cycle updates; step k consumes rngs k. -/
def runAutoCycle (rngs : Nat → Nat) (s : CycleState) : Nat → CycleState
  | 0 => s
  | k + 1 => updateAutoCycling (rngs k) (runAutoCycle rngs s k)

/-! ## Double exposure (AppCore::processDoubleExposureWithState)

Direct translation of src/src/app/app_core.cpp lines 627-681 with the
constants of app_core.h lines 92-99.  The MOG2 foreground mask (after the
morphological close and Gaussian blur, none of which the core computes
itself) enters as an oracle `Mask` per call; `rand()` enters as one natural
number per call.  cv::addWeighted(in, 0.25, past, 0.75, 0) throws
cv::Exception when the operand sizes differ, which the embedding surfaces
as `Except CvError`. -/

instance : Inhabited Frame := ⟨⟨0, 0, []⟩⟩

/-- Single-channel mask rows, as produced by the external subtractor plus
morphology plus blur pipeline. -/
abbrev Mask := List (List Nat)

def MAX_FRAME_HISTORY : Nat := 90

def MIN_TIME_OFFSET : Nat := 15

def MAX_TIME_OFFSET : Nat := 75

/-- One 8-bit channel of cv::addWeighted(a, 0.25, b, 0.75, 0): the rounded
fixed-point combination 0.25a + 0.75b. -/
def blendPix (a b : Nat) : Nat :=
  (25 * a + 75 * b + 50) / 100

/-- cv::addWeighted applied to one BGR row. -/
def blendRow : List Pix → List Pix → List Pix :=
  List.zipWith (fun p q => (blendPix p.1 q.1, blendPix p.2.1 q.2.1, blendPix p.2.2 q.2.2))

/-- cv::addWeighted applied to whole-frame pixel data. -/
def blendData (a b : List (List Pix)) : List (List Pix) :=
  List.zipWith blendRow a b

/-- cv::addWeighted(a, 0.25, b, 0.75, 0, blended): asserts equal operand
sizes (throwing cv::Exception otherwise) and blends channelwise. -/
def addWeighted2575 (a b : Frame) : Except CvError Frame :=
  if a.rows = b.rows ∧ a.cols = b.cols then
    .ok ⟨a.rows, a.cols, blendData a.data b.data⟩
  else
    .error .sizeMismatch

/-- Model of `out_bgr = in_bgr.clone()` followed by
`blended.copyTo(out_bgr, fg_mask)`: every pixel where the mask is nonzero
takes the overlay value, every other pixel keeps the base value. -/
def maskedCopyTo (mask : Mask) (base overlay : Frame) : Frame :=
  ⟨base.rows, base.cols,
    (List.range base.rows).map (fun y =>
      (List.range base.cols).map (fun x =>
        if (mask.getD y []).getD x 0 ≠ 0 then
          (overlay.data.getD y []).getD x (0, 0, 0)
        else
          (base.data.getD y []).getD x (0, 0, 0)))⟩

/-- Double-exposure state: frame_history_, frame_history_index_,
frame_counter_ and current_time_offset_ (or their per-panel copies). -/
structure DEState where
  history : List (Option Frame)
  historyIndex : Nat
  frameCounter : Nat
  timeOffset : Nat
deriving DecidableEq

/-- AppCore::processDoubleExposureWithState.  The Nat-subtraction form
`historyIndex + MAX_FRAME_HISTORY - timeOffset` agrees with the C++
`(history_index - time_offset + MAX_FRAME_HISTORY) % MAX_FRAME_HISTORY`
because the stored offset always lies in [MIN_TIME_OFFSET, MAX_TIME_OFFSET]
so the C++ int expression is nonnegative. -/
def processDoubleExposureWithState (rng : Nat) (mask : Mask) (inBgr : Frame)
    (s : DEState) : Except CvError (Frame × DEState) :=
  let history0 :=
    if s.history.isEmpty then List.replicate MAX_FRAME_HISTORY (none : Option Frame)
    else s.history
  let history := history0.set s.historyIndex (some inBgr)
  let historyIndex := (s.historyIndex + 1) % MAX_FRAME_HISTORY
  let fc := s.frameCounter + 1
  let frameCounter := if fc ≥ 60 then 0 else fc
  let timeOffset :=
    if fc ≥ 60 then MIN_TIME_OFFSET + rng % (MAX_TIME_OFFSET - MIN_TIME_OFFSET + 1)
    else s.timeOffset
  let pastFrameIndex := (historyIndex + MAX_FRAME_HISTORY - timeOffset) % MAX_FRAME_HISTORY
  match history.getD pastFrameIndex none with
  | some past =>
    match addWeighted2575 inBgr past with
    | .ok blended =>
      .ok (maskedCopyTo mask inBgr blended, ⟨history, historyIndex, frameCounter, timeOffset⟩)
    | .error e => .error e
  | none => .ok (inBgr, ⟨history, historyIndex, frameCounter, timeOffset⟩)

/-- Repeated double-exposure ticks over a frame stream; step k consumes
rngs k and masks k, and stops at the first thrown cv::Exception (which in
the C++ would propagate out of processFrame). -/
def runDoubleExposure (rngs : Nat → Nat) (masks : Nat → Mask) :
    List Frame → DEState → Except CvError (List Frame × DEState)
  | [], s => .ok ([], s)
  | f :: fs, s =>
    match processDoubleExposureWithState (rngs 0) (masks 0) f s with
    | .error e => .error e
    | .ok (out, s1) =>
      match runDoubleExposure (fun i => rngs (i + 1)) (fun i => masks (i + 1)) fs s1 with
      | .error e => .error e
      | .ok (outs, s2) => .ok (out :: outs, s2)

/-- Index of the latest write landing in ring slot i after n sequential
writes (write j goes to slot j mod 90), if any. -/
def slotLatest (n i : Nat) : Option Nat :=
  if i < n then some (i + MAX_FRAME_HISTORY * ((n - 1 - i) / MAX_FRAME_HISTORY)) else none

/-- Ring-buffer contents after the frames fs have been written in order
into an initially empty history. -/
def expectedDEHistory (fs : List Frame) : List (Option Frame) :=
  if fs.length = 0 then []
  else
    (List.range MAX_FRAME_HISTORY).map
      (fun i => (slotLatest fs.length i).bind (fun j => fs[j]?))

/-- Double-exposure state reached after feeding fs from the initial state
with a pinned time offset o. -/
def stateAfterDE (o : Nat) (fs : List Frame) : DEState :=
  ⟨expectedDEHistory fs, fs.length % MAX_FRAME_HISTORY, fs.length % 60, o⟩

/-- Output the k-th double-exposure tick produces (0-based k, so k+1 frames
have been written when tick k's read happens). -/
def expectedDEOutput (masks : Nat → Mask) (o : Nat) (fs : List Frame) (k : Nat) : Frame :=
  let cur := fs.getD k default
  if k + 1 < o then cur
  else
    maskedCopyTo (masks k) cur
      ⟨cur.rows, cur.cols, blendData cur.data (fs.getD (k + 1 - o) default).data⟩

/-- All outputs of a double-exposure run over fs. -/
def expectedDEOutputs (masks : Nat → Mask) (o : Nat) (fs : List Frame) : List Frame :=
  (List.range fs.length).map (expectedDEOutput masks o fs)

/-- One-pixel frame with the given blue-channel value, used for concrete
ring-buffer runs. -/
def constFrame1 (v : Nat) : Frame :=
  ⟨1, 1, [[(v, 0, 0)]]⟩

/-- Concrete stream of distinguishable one-pixel frames. -/
def deProbeFrames (n : Nat) : List Frame :=
  (List.range n).map (fun i => constFrame1 (10 * i))

/-- All-foreground one-pixel mask. -/
def fullMask1 : Mask := [[255]]

deriving instance DecidableEq for Except

/-- Concrete 16-frame double-exposure run with the time offset pinned at 15
and an all-foreground mask, used to exhibit which past frame the ring
buffer actually returns. -/
def deCexRun : Except CvError (List Frame × DEState) :=
  runDoubleExposure (fun _ => 0) (fun _ => fullMask1) (deProbeFrames 16) ⟨[], 0, 0, 15⟩

/-! ## Motion-driven processors: shared contour pipeline (C7)

AppCore::processFilledSilhouette (src/src/app/app_core.cpp lines 158-170)
and the filled-silhouette arm of AppCore::processPanelRegion (case 2, lines
815-831) run the same pipeline: MOG2 mask, findPersonContours with a
minimum area, a zeroed canvas, and cv::drawContours(..., FILLED) in white.
The external pieces (mask, cv::findContours, cv::contourArea, the
rasterised fill of each contour) enter as a list of contours carrying their
measured area and their filled pixel set; both code paths consume exactly
this data, differing only in the constants they pass. -/

/-- External contour as consumed by the core: its cv::contourArea
measurement, the pixel set cv::drawContours(..., FILLED) paints, and the
pixel set the thickness-2 stroke of cv::drawContours paints. -/
structure Contour where
  area : ℚ
  fill : List (Nat × Nat)
  stroke : List (Nat × Nat)
deriving DecidableEq

/-- findPersonContours (app_core.cpp lines 144-156): keep the contours
whose area exceeds min_contour_area. -/
def findPersonContours (contours : List Contour) (minContourArea : ℚ) : List Contour :=
  contours.filter (fun ct => minContourArea < ct.area)

/-- Zeroed CV_8UC3 canvas with the kept contours drawn filled in white. -/
def renderFilledContours (r c : Nat) (cs : List Contour) : Frame :=
  ⟨r, c,
    (List.range r).map (fun y =>
      (List.range c).map (fun x =>
        if cs.any (fun ct => ct.fill.contains (y, x)) then (255, 255, 255)
        else (0, 0, 0)))⟩

/-- AppCore::processFilledSilhouette: global path, min_contour_area = 1000. -/
def processFilledSilhouette (r c : Nat) (contours : List Contour) : Frame :=
  renderFilledContours r c (findPersonContours contours 1000)

/-- AppCore::processPanelRegion, case 2: per-panel path,
min_contour_area = 500. -/
def processPanelRegionFilledSilhouette (r c : Nat) (contours : List Contour) : Frame :=
  renderFilledContours r c (findPersonContours contours 500)

/-- Contour whose area lies strictly between the per-panel threshold (500)
and the global threshold (1000). -/
def midAreaContour : Contour :=
  ⟨700, [(0, 0)], []⟩

/-! ## Oval-chain renderer (C8)

OvalChainEffect::renderChain (src/src/effects/ambient/oval_chain.cpp lines
252-302): three passes over the chain emit, in order, the back half of each
on-screen even-indexed link, then each on-screen odd-indexed link in full,
then the front half of each on-screen even-indexed link.  The embedding
records the sequence of draw calls the function issues. -/

def LINK_OUTER_WIDTH : ℚ := 28

def LINK_OUTER_HEIGHT : ℚ := 12

/-- Fields of an OvalLink that renderChain consults (position for the
off-screen test; rotation and brightness are passed on to the draw calls). -/
structure OvalLink where
  posX : ℚ
  posY : ℚ
  rotation : ℚ
  brightness : ℚ
deriving DecidableEq

/-- Off-screen skip test repeated in each renderChain pass:
max_dim = max(LINK_OUTER_WIDTH, LINK_OUTER_HEIGHT) and the link is skipped
when its center is more than 2*max_dim outside the frame. -/
def linkVisible (cols rows : Nat) (l : OvalLink) : Bool :=
  let maxDim := max LINK_OUTER_WIDTH LINK_OUTER_HEIGHT
  !(decide (l.posX < -maxDim * 2) || decide (l.posX > (cols : ℚ) + maxDim * 2) ||
    decide (l.posY < -maxDim * 2) || decide (l.posY > (rows : ℚ) + maxDim * 2))

/-- One draw call issued by renderChain: drawLinkHalf(frame, link, false),
drawMetallicRing(frame, link), or drawLinkHalf(frame, link, true), recorded
with the link's chain index. -/
inductive DrawCmd where
  | backHalf (i : Nat)
  | fullLink (i : Nat)
  | frontHalf (i : Nat)
deriving DecidableEq

/-- First renderChain loop: for every index, skip off-screen links, and
draw the back half of even-indexed links. -/
def renderBackPass (cols rows : Nat) : Nat → List OvalLink → List DrawCmd
  | _, [] => []
  | i, l :: ls =>
    (if linkVisible cols rows l then
        (if i % 2 = 0 then [DrawCmd.backHalf i] else [])
      else [])
      ++ renderBackPass cols rows (i + 1) ls

/-- Second renderChain loop (for i = 1; i < n; i += 2): draw every
on-screen odd-indexed link in full; the stride-2 loop is rendered as an
index-parity test. -/
def renderFullPass (cols rows : Nat) : Nat → List OvalLink → List DrawCmd
  | _, [] => []
  | i, l :: ls =>
    (if i % 2 = 1 then
        (if linkVisible cols rows l then [DrawCmd.fullLink i] else [])
      else [])
      ++ renderFullPass cols rows (i + 1) ls

/-- Third renderChain loop (for i = 0; i < n; i += 2): draw the front half
of every on-screen even-indexed link on top. -/
def renderFrontPass (cols rows : Nat) : Nat → List OvalLink → List DrawCmd
  | _, [] => []
  | i, l :: ls =>
    (if i % 2 = 0 then
        (if linkVisible cols rows l then [DrawCmd.frontHalf i] else [])
      else [])
      ++ renderFrontPass cols rows (i + 1) ls

/-- OvalChainEffect::renderChain: the ordered sequence of draw calls. -/
def renderChain (cols rows : Nat) (links : List OvalLink) : List DrawCmd :=
  if links.isEmpty then []
  else
    renderBackPass cols rows 0 links ++ renderFullPass cols rows 0 links
      ++ renderFrontPass cols rows 0 links

/-- On-screen probe link for a 64x64 frame. -/
def ovalProbeLink : OvalLink :=
  ⟨10, 10, 0, 1⟩

/-- Three-link probe chain. -/
def ovalProbeChain : List OvalLink :=
  [ovalProbeLink, ovalProbeLink, ovalProbeLink]

/-- Concrete auto-cycling state used to instantiate the scheduling theorem:
a fresh counter with two frames until the next switch. -/
def cycleProbeState : CycleState :=
  { displayMode := 3
    autoCyclingEnabled := true
    cycleFrameCounter := 0
    framesUntilNextMode := 2
    transitionFramesRemaining := 0
    previousMode := 1
    transitionAlpha := 0 }

/-! ## Root-vein generator (MandelbrotRootVeinsEffect)

Translation of src/src/effects/ambient/mandelbrot_root_veins.cpp with the
constants of its header.  Transcendental library calls (sin, cos, atan2 and
the constant pi) are abstracted into a `RealFuns` oracle; rand() values
(already divided by RAND_MAX, so in [0,1]) come from a stream `rnds`
indexed by consumption order.  cv::norm comparisons are embedded as the
equivalent squared-distance comparisons (norm(d) > r iff |d|^2 > r^2 for
r >= 0). -/

def MAX_SEGMENTS : Nat := 800

def GROWTH_SPEED : ℚ := 3

def WILT_SPEED : ℚ := 1/50

def BRANCH_ANGLE_SPREAD : ℚ := 9/20

def MAX_GENERATION : Nat := 8

/-- Oracle for the C math library's transcendental functions on the
embedded rationals. -/
structure RealFuns where
  sinq : ℚ → ℚ
  cosq : ℚ → ℚ
  atan2q : ℚ → ℚ → ℚ
  piq : ℚ

/-- One VeinSegment (mandelbrot_root_veins.h lines 8-18); the two
cv::Point2f fields are split into coordinates. -/
structure VeinSegment where
  startX : ℚ
  startY : ℚ
  endX : ℚ
  endY : ℚ
  age : ℚ
  generation : Nat
  is_wilting : Bool
  wilt_progress : ℚ
  phase : ℚ
  direction : ℚ
  is_tip : Bool
deriving DecidableEq

/-- Effect state: segments_, time_, zoom_, rotation_, width_, height_. -/
structure VeinState where
  segments : List VeinSegment
  time : ℚ
  zoom : ℚ
  rotation : ℚ
  width : Int
  height : Int
deriving DecidableEq

/-- Inner loop of getMandelbrotDirection: up to the given number of
iterations of z := z^2 + c with escape check |z|^2 > 4 after each update. -/
def mandelLoop (c : ℚ × ℚ) : Nat → ℚ × ℚ → ℚ × ℚ
  | 0, z => z
  | n + 1, z =>
    let zx := z.1 * z.1 - z.2 * z.2 + c.1
    let zy := 2 * z.1 * z.2 + c.2
    if zx * zx + zy * zy > 4 then (zx, zy) else mandelLoop c n (zx, zy)

/-- MandelbrotRootVeinsEffect::getMandelbrotDirection. -/
def getMandelbrotDirection (rf : RealFuns) (width height : Int) (time : ℚ)
    (x y baseAngle : ℚ) : ℚ :=
  let mx := (x / (width : ℚ)) * 4 - 2
  let my := (y / (height : ℚ)) * 4 - 2
  let z := mandelLoop (mx, my) 8 (0, 0)
  let escapeAngle := rf.atan2q z.2 z.1
  baseAngle + (3/10) * rf.sinq (escapeAngle + time * (1/10))

/-- Loop body of MandelbrotRootVeinsEffect::growVeins: processes the
original segments in order (pending), accumulating updated originals
(done) and freshly appended continuation tips (appended); new tips are
visible to the segments_.size() cap check but are not themselves iterated
this tick. -/
def growVeinsGo (rf : RealFuns) (rnds : Nat → ℚ) (dt time : ℚ) (w h : Int) :
    List VeinSegment → List VeinSegment → List VeinSegment → Nat →
      List VeinSegment × List VeinSegment
  | [], done, appended, _ => (done, appended)
  | seg :: pending, done, appended, ri =>
    if !seg.is_tip || seg.is_wilting then
      growVeinsGo rf rnds dt time w h pending (done ++ [seg]) appended ri
    else
      let age := seg.age + dt
      let dir0 :=
        if age < 1 then seg.direction
        else getMandelbrotDirection rf w h time seg.endX seg.endY seg.direction
      let dir := dir0 + (1/20) * rf.sinq (time * (1/2) + seg.phase)
      let growth := GROWTH_SPEED * dt * 30
      let newEndX := seg.endX + growth * rf.cosq dir
      let newEndY := seg.endY + growth * rf.sinq dir
      let margin : ℚ := 50
      if newEndX < -margin ∨ newEndX > (w : ℚ) + margin ∨
          newEndY < -margin ∨ newEndY > (h : ℚ) + margin then
        growVeinsGo rf rnds dt time w h pending
          (done ++ [{ seg with age := age, is_tip := false }]) appended ri
      else
        let seg1 := { seg with
          age := age, endX := newEndX, endY := newEndY, direction := dir }
        let dxs := newEndX - seg.startX
        let dys := newEndY - seg.startY
        if dxs * dxs + dys * dys > 2500 ∧
            done.length + 1 + pending.length + appended.length < MAX_SEGMENTS then
          let newSeg : VeinSegment :=
            { startX := newEndX, startY := newEndY, endX := newEndX, endY := newEndY
              age := 0, generation := seg.generation, is_wilting := false
              wilt_progress := 0, phase := rnds ri * 2 * rf.piq
              direction := dir, is_tip := true }
          growVeinsGo rf rnds dt time w h pending (done ++ [seg1])
            (appended ++ [newSeg]) (ri + 1)
        else
          growVeinsGo rf rnds dt time w h pending (done ++ [seg1]) appended ri

/-- MandelbrotRootVeinsEffect::growVeins. -/
def growVeins (rf : RealFuns) (rnds : Nat → ℚ) (dt : ℚ) (s : VeinState) : VeinState :=
  let r := growVeinsGo rf rnds dt s.time s.width s.height s.segments [] [] 0
  { s with segments := r.1 ++ r.2 }

/-- MandelbrotRootVeinsEffect::segmentsIntersect: rational segment
intersection with the parallelism epsilon test. -/
def segmentsIntersect (p1 p2 p3 p4 : ℚ × ℚ) : Option (ℚ × ℚ) :=
  let d1x := p2.1 - p1.1
  let d1y := p2.2 - p1.2
  let d2x := p4.1 - p3.1
  let d2y := p4.2 - p3.2
  let cross := d1x * d2y - d1y * d2x
  if |cross| < 1/1000000 then none
  else
    let dx := p3.1 - p1.1
    let dy := p3.2 - p1.2
    let t := (dx * d2y - dy * d2x) / cross
    let u := (dx * d1y - dy * d1x) / cross
    if 0 ≤ t ∧ t ≤ 1 ∧ 0 ≤ u ∧ u ≤ 1 then
      some (p1.1 + t * d1x, p1.2 + t * d1y)
    else none

/-- Candidate-collection loops of checkIntersections: every non-adjacent
non-wilting pair that intersects yields (intersection, averaged direction
plus random offset); the rand() for the offset is consumed before the
generation-cap test, matching the C++ statement order. -/
def branchCandidates (segs : List VeinSegment) (rnds : Nat → ℚ) (ri0 : Nat) :
    List ((ℚ × ℚ) × ℚ) × Nat :=
  (List.range segs.length).foldl (fun acc i =>
    (List.range segs.length).foldl (fun acc2 j =>
      if i + 2 ≤ j then
        match segs[i]?, segs[j]? with
        | some si, some sj =>
          if si.is_wilting || sj.is_wilting then acc2
          else
            match segmentsIntersect (si.startX, si.startY) (si.endX, si.endY)
                (sj.startX, sj.startY) (sj.endX, sj.endY) with
            | some pt =>
              let avgDir := (si.direction + sj.direction) / 2
                + (rnds acc2.2 - 1/2) * BRANCH_ANGLE_SPREAD
              if max si.generation sj.generation < MAX_GENERATION then
                (acc2.1 ++ [(pt, avgDir)], acc2.2 + 1)
              else (acc2.1, acc2.2 + 1)
            | none => acc2
        | _, _ => acc2
      else acc2) acc) ([], ri0)

/-- Wilting marker used when a branch arrives beyond the cap: the first
non-root, non-wilting segment older than 2 seconds starts wilting. -/
def markFirstWilting : List VeinSegment → List VeinSegment
  | [] => []
  | seg :: rest =>
    if seg.generation > 0 ∧ ¬ seg.is_wilting ∧ seg.age > 2 then
      { seg with is_wilting := true } :: rest
    else seg :: markFirstWilting rest

/-- MandelbrotRootVeinsEffect::spawnBranch; consumes two rand() values
(phase, direction offset). -/
def spawnBranch (rf : RealFuns) (rnds : Nat → ℚ) (ri : Nat) (origin : ℚ × ℚ)
    (baseDirection : ℚ) (parentGeneration : Nat)
    (segs : List VeinSegment) : List VeinSegment :=
  if segs.length ≥ MAX_SEGMENTS then segs
  else
    segs ++ [{ startX := origin.1, startY := origin.2
               endX := origin.1, endY := origin.2
               age := 0, generation := parentGeneration + 1, is_wilting := false
               wilt_progress := 0, phase := rnds ri * 2 * rf.piq
               direction := baseDirection + (rnds (ri + 1) - 1/2) * (1/2)
               is_tip := true }]

/-- Spawn loop of checkIntersections: beyond the cap a segment is marked
wilting instead; otherwise the parent generation is the maximum generation
among segments whose end lies within distance 20 of the intersection
(squared comparison), and spawnBranch runs. -/
def spawnFromBranches (rf : RealFuns) (rnds : Nat → ℚ) :
    List ((ℚ × ℚ) × ℚ) → Nat → List VeinSegment → List VeinSegment
  | [], _, segs => segs
  | (pt, dir0) :: rest, ri, segs =>
    if segs.length ≥ MAX_SEGMENTS then
      spawnFromBranches rf rnds rest ri (markFirstWilting segs)
    else
      let parentGen := segs.foldl (fun g seg =>
        let dx := seg.endX - pt.1
        let dy := seg.endY - pt.2
        if dx * dx + dy * dy < 400 then max g seg.generation else g) 0
      spawnFromBranches rf rnds rest (ri + 2)
        (spawnBranch rf rnds ri pt dir0 parentGen segs)

/-- MandelbrotRootVeinsEffect::checkIntersections. -/
def checkIntersections (rf : RealFuns) (rnds : Nat → ℚ) (ri : Nat)
    (s : VeinState) : VeinState :=
  if s.segments.length < 2 then s
  else
    let bc := branchCandidates s.segments rnds ri
    { s with segments := spawnFromBranches rf rnds bc.1 bc.2 s.segments }

/-- MandelbrotRootVeinsEffect::updateWilting: advance wilt progress, and on
the periodic (int)(time*10) % 50 == 0 tick remove fully wilted non-root
segments. -/
def updateWilting (s : VeinState) : VeinState :=
  let segs := s.segments.map (fun seg =>
    if seg.is_wilting then
      { seg with wilt_progress := min 1 (seg.wilt_progress + WILT_SPEED) }
    else seg)
  let segs2 :=
    if Int.floor (s.time * 10) % 50 = 0 then
      segs.filter (fun seg =>
        !(decide (seg.wilt_progress ≥ 1) && decide (seg.generation > 0)))
    else segs
  { s with segments := segs2 }

/-- MandelbrotRootVeinsEffect::initializeRootVeins: four tip roots, one per
corner, aimed at the canvas center. -/
def initializeRootVeins (rf : RealFuns) (rnds : Nat → ℚ) (w h : Int) :
    List VeinSegment :=
  let cx := (w : ℚ) / 2
  let cy := (h : ℚ) / 2
  let corners : List ((ℚ × ℚ) × ℚ) :=
    [((0, 0), rf.atan2q cy cx),
     (((w : ℚ), 0), rf.atan2q cy (-cx)),
     ((0, (h : ℚ)), rf.atan2q (-cy) cx),
     (((w : ℚ), (h : ℚ)), rf.atan2q (-cy) (-cx))]
  (List.range corners.length).map (fun i =>
    let corner := corners.getD i ((0, 0), 0)
    { startX := corner.1.1, startY := corner.1.2
      endX := corner.1.1, endY := corner.1.2
      age := 0, generation := 0, is_wilting := false, wilt_progress := 0
      phase := rnds i * 2 * rf.piq
      direction := corner.2, is_tip := true })

/-- Output size every generator process() call must produce: target size
when positive, the effect's own size otherwise, with the 640x480 fallback
for degenerate values (rows, cols). -/
def procOutputSize (targetW targetH width height : Int) : Nat × Nat :=
  if width ≤ 0 ∨ height ≤ 0 then (480, 640)
  else
    let ow0 := if targetW > 0 then targetW else width
    let oh0 := if targetH > 0 then targetH else height
    if ow0 ≤ 0 ∨ oh0 ≤ 0 then (480, 640) else (oh0.toNat, ow0.toNat)

/-- MandelbrotRootVeinsEffect::process (lines 329-428).  The body of the
try block only writes pixel data (the expanding-reveal mandelbrot loop and
the Gaussian glow, all external drawing on a Mat whose header keeps the
allocated size); it enters as an Except-valued data oracle and a thrown
cv::Exception is caught and replaced by the zeroed frame of the expected
size.  The segment network is never touched by process. -/
def MRVprocess (render : Except CvError (List (List Pix)))
    (targetW targetH : Int) (s : VeinState) : Frame × VeinState :=
  if s.width ≤ 0 ∨ s.height ≤ 0 then (Frame.zeros 480 640, s)
  else
    let ow0 := if targetW > 0 then targetW else s.width
    let oh0 := if targetH > 0 then targetH else s.height
    let ow := if ow0 ≤ 0 ∨ oh0 ≤ 0 then 640 else ow0
    let oh := if ow0 ≤ 0 ∨ oh0 ≤ 0 then 480 else oh0
    let s1 := { s with time := s.time + 1/30 }
    match render with
    | .ok data => (⟨oh.toNat, ow.toNat, data⟩, s1)
    | .error _ => (Frame.zeros oh.toNat ow.toNat, s1)

/-- Fixed-point iteration of MRVprocess ticks (used to follow the network
across simulated time). -/
def mrvRun (render : Except CvError (List (List Pix))) : Nat → VeinState → VeinState
  | 0, s => s
  | n + 1, s => (MRVprocess render (-1) (-1) (mrvRun render n s)).2

/-- Concrete no-tip segment (a non-root segment whose tip flag is off). -/
def deadSegment : VeinSegment :=
  { startX := 1, startY := 1, endX := 2, endY := 2, age := 5, generation := 1
    is_wilting := false, wilt_progress := 0, phase := 0, direction := 0
    is_tip := false }

/-- Vein state whose network has no active tip at all. -/
def deadVeinState : VeinState :=
  { segments := [deadSegment], time := 0, zoom := 1, rotation := 0
    width := 64, height := 64 }

/-- Trivial transcendental oracle for concrete runs. -/
def rfZero : RealFuns :=
  ⟨fun _ => 0, fun _ => 0, fun _ _ => 0, 0⟩

/-! ## Oval-chain process boundary (OvalChainEffect::process)

src/src/effects/ambient/oval_chain.cpp lines 117-144: the same dimension
logic as the root-vein generator, a time advance, and a try block whose
cv::Exception handler replaces the output with a zeroed frame of the
computed size. -/

/-- Fields of OvalChainEffect that its process() boundary logic reads. -/
structure OCState where
  time : ℚ
  width : Int
  height : Int
deriving DecidableEq

/-- OvalChainEffect::process.  The try block (zeroed canvas, updateChain,
renderChain - drawing whose pixel results are external) enters as an
Except-valued data oracle; cv::Exception is caught and yields the zeroed
frame of the expected size. -/
def ovalChainProcess (render : Except CvError (List (List Pix)))
    (targetW targetH : Int) (s : OCState) : Frame × OCState :=
  if s.width ≤ 0 ∨ s.height ≤ 0 then (Frame.zeros 480 640, s)
  else
    let ow0 := if targetW > 0 then targetW else s.width
    let oh0 := if targetH > 0 then targetH else s.height
    let ow := if ow0 ≤ 0 ∨ oh0 ≤ 0 then 640 else ow0
    let oh := if ow0 ≤ 0 ∨ oh0 ≤ 0 then 480 else oh0
    let s1 := { s with time := s.time + 1/30 }
    match render with
    | .ok data => (⟨oh.toNat, ow.toNat, data⟩, s1)
    | .error _ => (Frame.zeros oh.toNat ow.toNat, s1)

/-! ## AppCore frame pipeline (processFrame and helpers)

Translation of AppCore (src/src/app/app_core.cpp, src/include/app/app_core.h)
at the level the claims need.  Components OpenCV computes are oracles
bundled per call in `CvOracles`: the contour set extracted from the MOG2
mask, the processed double-exposure mask, and the raw pixel data produced
by externally rasterised compositors (rainbow trails, procedural shapes,
cv::resize).  Everything AppCore itself computes - the empty-input early
return, buffer (re)allocation, auto-cycling, mode dispatch, ring-buffer
arithmetic, panel slicing, and the size assertions of cv::addWeighted -
is translated directly. -/

/-- Dimensions of the CV_32FC1 trail_age_buffer_; its float contents feed
only the externally-rasterised rainbow compositor, so the embedding keeps
the header the ensureSize logic manages. -/
structure FloatBuf where
  rows : Nat
  cols : Nat
deriving DecidableEq

/-- Procedural-shapes counters (app_core.h lines 133-140).  They are
advanced by processProceduralShapes, whose trigonometric update rules and
pixel output are external to every claim and enter as an oracle step. -/
structure ProcShapesState where
  proceduralFrameCounter : Nat
  proceduralTime : ℚ
  currentShapeType : Nat
  shapeMorphProgress : ℚ
  fillModeProgress : ℚ
  colorMorphProgress : ℚ
deriving DecidableEq

/-- Whole AppCore state (the header's fields, with the auto-cycling block
shared with the CycleState model). -/
structure AppState where
  cycle : CycleState
  multiPanelEnabled : Bool
  panelMode : Nat
  panelEffects : List Int
  width : Nat
  height : Nat
  numPanels : Nat
  silhouette : Frame
  trailAge : FloatBuf
  de : DEState
  panelResourcesInitialized : Bool
  panelSilhouettes : List Frame
  panelDE : List DEState
  procedural : ProcShapesState
deriving DecidableEq

/-- Per-call bundle of the external OpenCV results one processFrame call
consumes. -/
structure CvOracles where
  rng : Nat
  contours : Frame → List Contour
  deMask : Frame → Mask
  rainbowData : Frame → List (List Pix)
  proceduralData : List (List Pix)
  uninitData : List (List Pix)
  resizeData : Frame → Nat → List (List Pix)
  procStep : ProcShapesState → ProcShapesState

/-- AppCore constructor: buffers zeroed to the initial size, display mode
1, auto-cycling on, double-exposure offset 30, per-panel effects default 1,
panel resources not yet allocated. -/
def AppCore_init (width height numPanels : Nat) : AppState :=
  { cycle :=
      { displayMode := 1
        autoCyclingEnabled := true
        cycleFrameCounter := 0
        framesUntilNextMode := 0
        transitionFramesRemaining := 0
        previousMode := 1
        transitionAlpha := 0 }
    multiPanelEnabled := false
    panelMode := 0
    panelEffects := List.replicate numPanels 1
    width := width
    height := height
    numPanels := numPanels
    silhouette := Frame.zeros height width
    trailAge := ⟨height, width⟩
    de := ⟨[], 0, 0, 30⟩
    panelResourcesInitialized := false
    panelSilhouettes := []
    panelDE := []
    procedural := ⟨0, 0, 0, 0, 0, 0⟩ }

/-- AppCore::setDisplayMode. -/
def setDisplayMode (m : Int) (s : AppState) : AppState :=
  { s with cycle := { s.cycle with displayMode := m } }

/-- AppCore::toggleAutoCycling (rand() passed in): re-enabling resets the
counters and cancels any in-flight transition. -/
def toggleAutoCycling (rng : Nat) (s : AppState) : AppState :=
  if !s.cycle.autoCyclingEnabled then
    { s with cycle :=
        { s.cycle with
          autoCyclingEnabled := true
          cycleFrameCounter := 0
          framesUntilNextMode := getRandomCycleInterval rng
          transitionFramesRemaining := 0 } }
  else
    { s with cycle := { s.cycle with autoCyclingEnabled := false } }

/-- AppCore::ensureSize: on a size change the silhouette and trail-age
buffers are reallocated zero-filled; the double-exposure frame history and
the per-panel buffers are NOT touched. -/
def ensureSize (w h : Nat) (s : AppState) : AppState :=
  if w = s.width ∧ h = s.height ∧ s.silhouette.isEmpty = false then s
  else
    { s with
      width := w
      height := h
      silhouette := Frame.zeros h w
      trailAge := ⟨h, w⟩ }

/-- Mat *= factor on CV_8UC3 data: each channel scaled by num/den with
OpenCV rounding. -/
def scaleFrame (num den : Nat) (f : Frame) : Frame :=
  ⟨f.rows, f.cols,
    f.data.map (fun row => row.map (fun p =>
      ((num * p.1 + den / 2) / den, (num * p.2.1 + den / 2) / den,
        (num * p.2.2 + den / 2) / den)))⟩

/-- cv::drawContours(..., white, FILLED) over an existing canvas. -/
def paintContours (f : Frame) (cs : List Contour) : Frame :=
  ⟨f.rows, f.cols,
    (List.range f.rows).map (fun y =>
      (List.range f.cols).map (fun x =>
        if cs.any (fun ct => ct.fill.contains (y, x)) then (255, 255, 255)
        else (f.data.getD y []).getD x (0, 0, 0)))⟩

/-- Zeroed canvas with the kept contours drawn as thickness-2 white
strokes (AppCore::processOutline rendering). -/
def renderOutlineContours (r c : Nat) (cs : List Contour) : Frame :=
  ⟨r, c,
    (List.range r).map (fun y =>
      (List.range c).map (fun x =>
        if cs.any (fun ct => ct.stroke.contains (y, x)) then (255, 255, 255)
        else (0, 0, 0)))⟩

/-- cv::addWeighted(prev, 1 - alpha, curr, alpha, 0) on one channel. -/
def blendPixAlpha (alpha : ℚ) (x y : Nat) : Nat :=
  (Int.floor ((1 - alpha) * (x : ℚ) + alpha * (y : ℚ) + 1/2)).toNat

/-- cv::addWeighted transition blend; throws cv::Exception on a size
mismatch. -/
def addWeightedTransition (alpha : ℚ) (a b : Frame) : Except CvError Frame :=
  if a.rows = b.rows ∧ a.cols = b.cols then
    .ok ⟨a.rows, a.cols,
      List.zipWith (fun ra rb => List.zipWith (fun p q =>
          (blendPixAlpha alpha p.1 q.1, blendPixAlpha alpha p.2.1 q.2.1,
            blendPixAlpha alpha p.2.2 q.2.2)) ra rb)
        a.data b.data⟩
  else .error .sizeMismatch

/-- AppCore::processDoubleExposure: the shared-state wrapper around
processDoubleExposureWithState. -/
def processDoubleExposureApp (orc : CvOracles) (inBgr : Frame) (s : AppState) :
    Except CvError (Frame × AppState) :=
  match processDoubleExposureWithState orc.rng (orc.deMask inBgr) inBgr s.de with
  | .error e => .error e
  | .ok (out, de1) => .ok (out, { s with de := de1 })

/-- AppCore effect dispatch for the single-panel path (the switch over
display_mode_, cases 1-8 with pass-through default). -/
def dispatchEffect (orc : CvOracles) (mode : Int) (inBgr : Frame)
    (s : AppState) : Except CvError (Frame × AppState) :=
  if mode = 2 then
    .ok (renderFilledContours inBgr.rows inBgr.cols
      (findPersonContours (orc.contours inBgr) 1000), s)
  else if mode = 3 then
    .ok (renderOutlineContours inBgr.rows inBgr.cols
      (findPersonContours (orc.contours inBgr) 1000), s)
  else if mode = 4 then
    let sil := paintContours (scaleFrame 7 10 s.silhouette)
      (findPersonContours (orc.contours inBgr) 1000)
    .ok (sil, { s with silhouette := sil })
  else if mode = 5 then
    let sil := paintContours (scaleFrame 92 100 s.silhouette)
      (findPersonContours (orc.contours inBgr) 1000)
    .ok (sil, { s with silhouette := sil })
  else if mode = 6 then
    .ok (⟨inBgr.rows, inBgr.cols, orc.rainbowData inBgr⟩, s)
  else if mode = 7 then
    processDoubleExposureApp orc inBgr s
  else if mode = 8 then
    .ok (⟨s.height, s.width, orc.proceduralData⟩,
      { s with procedural := orc.procStep s.procedural })
  else
    .ok (inBgr, s)

/-- AppCore::ensurePanelResourcesInitialized (lazy allocation of per-panel
subtractors, silhouette buffers and double-exposure state). -/
def ensurePanelResources (s : AppState) : AppState :=
  if s.panelResourcesInitialized then s
  else
    { s with
      panelSilhouettes :=
        List.replicate s.numPanels (Frame.zeros s.height (s.width / s.numPanels))
      panelDE := List.replicate s.numPanels ⟨[], 0, 0, MIN_TIME_OFFSET⟩
      panelResourcesInitialized := true }

/-- AppCore::processPanelRegion: the per-panel switch (thresholds 500, the
simplified rainbow, per-panel double-exposure state, and the effect-8 Mat
rebinding that detaches the local header from the output ROI and leaves
the region's freshly allocated memory unwritten). -/
def processPanelRegionApp (orc : CvOracles) (inRegion : Frame) (effect : Int)
    (i : Nat) (s : AppState) : Except CvError (Frame × AppState) :=
  let w := inRegion.cols
  let h := inRegion.rows
  let ps := s.panelSilhouettes.getD i default
  let s :=
    if ps.cols = w ∧ ps.rows = h then s
    else { s with panelSilhouettes := s.panelSilhouettes.set i (Frame.zeros h w) }
  if effect = 2 then
    .ok (renderFilledContours h w
      (findPersonContours (orc.contours inRegion) 500), s)
  else if effect = 3 then
    .ok (renderOutlineContours h w
      (findPersonContours (orc.contours inRegion) 500), s)
  else if effect = 4 then
    let sil := paintContours (scaleFrame 7 10 (s.panelSilhouettes.getD i default))
      (findPersonContours (orc.contours inRegion) 500)
    .ok (sil, { s with panelSilhouettes := s.panelSilhouettes.set i sil })
  else if effect = 5 then
    let sil := paintContours (scaleFrame 92 100 (s.panelSilhouettes.getD i default))
      (findPersonContours (orc.contours inRegion) 500)
    .ok (sil, { s with panelSilhouettes := s.panelSilhouettes.set i sil })
  else if effect = 6 then
    .ok (⟨h, w, orc.rainbowData inRegion⟩, s)
  else if effect = 7 then
    match processDoubleExposureWithState orc.rng (orc.deMask inRegion) inRegion
        (s.panelDE.getD i ⟨[], 0, 0, MIN_TIME_OFFSET⟩) with
    | .error e => .error e
    | .ok (out, de1) => .ok (out, { s with panelDE := s.panelDE.set i de1 })
  else if effect = 8 then
    .ok (⟨h, w, orc.uninitData⟩, { s with procedural := orc.procStep s.procedural })
  else
    .ok (inRegion, s)

/-- Horizontal slice of the input frame: columns [x0, x1) of every row. -/
def subFrame (f : Frame) (x0 x1 : Nat) : Frame :=
  ⟨f.rows, x1 - x0, f.data.map (fun row => (row.drop x0).take (x1 - x0))⟩

/-- Sequential loop over panel indices threading AppState through each
panel's processing, collecting the per-panel output regions. -/
def panelsFold (step : Nat → AppState → Except CvError (Frame × AppState)) :
    List Nat → AppState → Except CvError (List Frame × AppState)
  | [], s => .ok ([], s)
  | i :: rest, s =>
    match step i s with
    | .error e => .error e
    | .ok (f, s1) =>
      match panelsFold step rest s1 with
      | .error e => .error e
      | .ok (fs, s2) => .ok (f :: fs, s2)

/-- Reassembly of the output Mat from its per-panel ROI writes: row y of
the output is the concatenation of row y of each region. -/
def stitchRows (regions : List Frame) (rows : Nat) : List (List Pix) :=
  (List.range rows).map (fun y =>
    regions.foldl (fun acc reg => acc ++ (reg.data.getD y [])) [])

/-- One panel of the standard EXTEND loop. -/
def extendStep (orc : CvOracles) (inBgr : Frame) (individual : Bool)
    (i : Nat) (s : AppState) : Except CvError (Frame × AppState) :=
  let xs := panelXStart inBgr.cols s.numPanels i
  let xe := panelXEnd inBgr.cols s.numPanels i
  let effect := if individual then s.panelEffects.getD i 1 else s.cycle.displayMode
  processPanelRegionApp orc (subFrame inBgr xs xe) effect i s

/-- One panel of the EXTEND loop in the shared double-exposure special
case: effect 7 regions are cut from the precomputed full frame; effect 8
regenerates procedural shapes at region size (with the same ROI-detaching
rebinding as the per-panel path); everything else goes through
processPanelRegion. -/
def extendStep7 (orc : CvOracles) (inBgr processedFull : Frame)
    (individual : Bool) (i : Nat) (s : AppState) :
    Except CvError (Frame × AppState) :=
  let xs := panelXStart inBgr.cols s.numPanels i
  let xe := panelXEnd inBgr.cols s.numPanels i
  let effect := if individual then s.panelEffects.getD i 1 else s.cycle.displayMode
  if effect = 7 then
    .ok (subFrame processedFull xs xe, s)
  else if effect = 8 then
    .ok (⟨inBgr.rows, xe - xs, orc.uninitData⟩,
      { s with procedural := orc.procStep s.procedural })
  else
    processPanelRegionApp orc (subFrame inBgr xs xe) effect i s

/-- One panel of the REPEAT loop: the whole frame is resized to the
panel's width (external cv::resize data) and processed with the panel's
effect through its own state. -/
def repeatStep (orc : CvOracles) (inBgr : Frame) (individual : Bool)
    (i : Nat) (s : AppState) : Except CvError (Frame × AppState) :=
  let xs := panelXStart inBgr.cols s.numPanels i
  let xe := panelXEnd inBgr.cols s.numPanels i
  let cpw := xe - xs
  let resized : Frame := ⟨inBgr.rows, cpw, orc.resizeData inBgr cpw⟩
  let effect := if individual then s.panelEffects.getD i 1 else s.cycle.displayMode
  processPanelRegionApp orc resized effect i s

/-- AppCore::processMultiPanel. -/
def processMultiPanel (orc : CvOracles) (inBgr : Frame) (s0 : AppState) :
    Except CvError (Frame × AppState) :=
  let s := ensurePanelResources s0
  let individual := s.multiPanelEnabled
  if s.panelMode = 0 then
    if individual = false ∧ s.cycle.displayMode = 7 then
      match processDoubleExposureApp orc inBgr s with
      | .error e => .error e
      | .ok (processedFull, s1) =>
        match panelsFold (extendStep7 orc inBgr processedFull individual)
            (List.range s1.numPanels) s1 with
        | .error e => .error e
        | .ok (regions, s2) =>
          .ok (⟨inBgr.rows, inBgr.cols, stitchRows regions inBgr.rows⟩, s2)
    else
      match panelsFold (extendStep orc inBgr individual)
          (List.range s.numPanels) s with
      | .error e => .error e
      | .ok (regions, s2) =>
        .ok (⟨inBgr.rows, inBgr.cols, stitchRows regions inBgr.rows⟩, s2)
  else
    match panelsFold (repeatStep orc inBgr individual)
        (List.range s.numPanels) s with
    | .error e => .error e
    | .ok (regions, s2) =>
      .ok (⟨inBgr.rows, inBgr.cols, stitchRows regions inBgr.rows⟩, s2)

/-- AppCore::processFrame.  A `none` output means out_bgr was never
written (the empty-input early return); a thrown cv::Exception propagates
out (nothing in AppCore catches it). -/
def processFrame (orc : CvOracles) (inBgr : Frame) (s : AppState) :
    Except CvError (Option Frame × AppState) :=
  if inBgr.isEmpty then .ok (none, s)
  else
    let s := ensureSize inBgr.cols inBgr.rows s
    let s := { s with cycle := updateAutoCycling orc.rng s.cycle }
    let useMultiPanel :=
      s.multiPanelEnabled || (decide (s.numPanels > 1) && decide (s.panelMode = 1))
    if useMultiPanel then
      match processMultiPanel orc inBgr s with
      | .error e => .error e
      | .ok (out, s1) => .ok (some out, s1)
    else
      if s.cycle.transitionFramesRemaining > 0 then
        match dispatchEffect orc s.cycle.previousMode inBgr s with
        | .error e => .error e
        | .ok (prevOut, s1) =>
          match dispatchEffect orc s1.cycle.displayMode inBgr s1 with
          | .error e => .error e
          | .ok (currOut, s2) =>
            match addWeightedTransition s2.cycle.transitionAlpha prevOut currOut with
            | .error e => .error e
            | .ok (blended) => .ok (some blended, s2)
      else
        match dispatchEffect orc s.cycle.displayMode inBgr s with
        | .error e => .error e
        | .ok (out, s1) => .ok (some out, s1)

/-- Frame stream driver: processFrame per incoming frame, stopping at the
first escaped cv::Exception (which in the C++ terminates the loop and the
process). -/
def runProcessFrames (orcs : Nat → CvOracles) :
    List Frame → AppState → Except CvError (List (Option Frame) × AppState)
  | [], s => .ok ([], s)
  | f :: fs, s =>
    match processFrame (orcs 0) f s with
    | .error e => .error e
    | .ok (out, s1) =>
      match runProcessFrames (fun i => orcs (i + 1)) fs s1 with
      | .error e => .error e
      | .ok (outs, s2) => .ok (out :: outs, s2)

/-- Constant 16x16 probe frame. -/
def smallProbeFrame : Frame :=
  ⟨16, 16, List.replicate 16 (List.replicate 16 (100, 0, 0))⟩

/-- Constant 32x32 probe frame (a resolution change for the core). -/
def largeProbeFrame : Frame :=
  ⟨32, 32, List.replicate 32 (List.replicate 32 (100, 0, 0))⟩

/-- Thirty frames at 16x16 and then one 32x32 frame. -/
def staleRunFrames : List Frame :=
  List.replicate 30 smallProbeFrame ++ [largeProbeFrame]

/-- Concrete oracle bundle: all-foreground double-exposure masks, no
contours, trivial external rasterisation. -/
def staleOracles : CvOracles :=
  { rng := 0
    contours := fun _ => []
    deMask := fun f => List.replicate f.rows (List.replicate f.cols 255)
    rainbowData := fun f => f.data
    proceduralData := []
    uninitData := []
    resizeData := fun f _ => f.data
    procStep := id }

/-- AppCore(16, 16, 1) with display mode 7 selected and auto-cycling
toggled off, as the key handlers of the runners do. -/
def staleRunInit : AppState :=
  toggleAutoCycling 0 (setDisplayMode 7 (AppCore_init 16 16 1))

/-! ### SystemMode / Effect validity

The runner src/src/desktop_to_matrix.cpp drives an AppCore revision that
exposes setEffect, getSystemMode, setSystemMode, getAppropriateModeForEffect
and getDefaultEffectForMode over Effect and SystemMode tags, but that
revision of AppCore is not present under src/ (src/include/app/app_core.h
has only the integer display-mode interface).  The definitions below are
therefore modelled from the spec (sections 3, 4.1 and 4.8) rather than
translated from source. -/

/-- Modelled from the spec: the closed Effect tag set of spec section 3. -/
inductive Effect where
  | debug
  | filledSilhouette
  | outline
  | motionTrails
  | rainbowTrails
  | doubleExposure
  | proceduralShapes
  | wavePatterns
  | mandelbrotVeins
  | geometricAbstraction

deriving instance DecidableEq for Effect

/-- Modelled from the spec: SystemMode is Ambient | Active (spec section 3). -/
inductive SystemMode where
  | ambient
  | active

deriving instance DecidableEq for SystemMode

/-- Modelled from the spec: each SystemMode's closed, ordered valid-effect
list.  Ambient gets the procedural generators; Active the motion-driven
effects, matching the runner's printout ("7 - Procedural Shapes (to
Ambient)", "8 - Wave Patterns (to Ambient)", "9 - Geometric Abstraction
(to Active)"). -/
def validEffectsForMode : SystemMode → List Effect
  | .ambient => [.proceduralShapes, .wavePatterns, .mandelbrotVeins]
  | .active => [.debug, .filledSilhouette, .outline, .motionTrails,
      .rainbowTrails, .doubleExposure, .geometricAbstraction]

/-- Modelled from the spec: isEffectValidForMode gates dispatch (spec 4.1). -/
def isEffectValidForMode (e : Effect) (m : SystemMode) : Bool :=
  (validEffectsForMode m).contains e

/-- Modelled from the spec: getDefaultEffectForMode supplies the Ambient
default (a procedural generator) and the Active default (the filled
silhouette) (spec 4.1). -/
def getDefaultEffectForMode : SystemMode → Effect
  | .ambient => .proceduralShapes
  | .active => .filledSilhouette

/-- Modelled from the spec: the mode/effect slice of core state driven by
the runner, with the auto-cycle counters of spec 4.8. -/
structure ModeState where
  mode : SystemMode
  effect : Effect
  cycleCounter : Nat
  framesUntilNext : Nat
  transitionRemaining : Nat

deriving instance DecidableEq for ModeState

/-- Modelled from the spec: reading the active effect corrects an invalid
one by silently substituting the mode's default and rewriting the stored
current effect (spec sections 3 and 4.1, error taxonomy item (a)). -/
def readEffect (s : ModeState) : Effect × ModeState :=
  if isEffectValidForMode s.effect s.mode then (s.effect, s)
  else (getDefaultEffectForMode s.mode,
    { s with effect := getDefaultEffectForMode s.mode })

/-- Modelled from the spec: auto-cycling advances to the next effect in the
current SystemMode's valid list, wrapping (spec 4.8). -/
def advanceEffect (s : ModeState) : ModeState :=
  let l := validEffectsForMode s.mode
  let nxt := l.getD ((l.indexOf s.effect + 1) % l.length) (getDefaultEffectForMode s.mode)
  { s with effect := nxt }

/-- Modelled from the spec: one processFrame of the SystemMode revision.
The auto-cycle controller runs before dispatch (transition countdown, else
counter increment and advance-on-expiry with a re-rolled interval and a
fresh 30-frame transition), then the dispatcher reads the active effect
exactly once (spec sections 2, 4.1 and 4.8). -/
def processFrameModes (rng : Nat) (s : ModeState) : Effect × ModeState :=
  let s1 :=
    if 0 < s.transitionRemaining then
      { s with transitionRemaining := s.transitionRemaining - 1 }
    else if s.cycleCounter + 1 ≥ s.framesUntilNext then
      { advanceEffect s with
          cycleCounter := 0
          framesUntilNext := getRandomCycleInterval rng
          transitionRemaining := TRANSITION_FRAMES }
    else { s with cycleCounter := s.cycleCounter + 1 }
  readEffect s1

/-- Probe state for the mode machine: Ambient mode with the Active-only
filled-silhouette effect stored, i.e. an invalid stored effect. -/
def modeProbeState : ModeState :=
  ⟨.ambient, .filledSilhouette, 0, 0, 0⟩

/- ===================================================================== -/
/- Theorems                                                              -/
/- ===================================================================== -/

/-! ### Panel slicing -/

theorem panelSlice_general (w n i : Nat) (hn : 1 ≤ n) (hi : i < n) :
    panelXStart w n i = i * (w / n) ∧
    (i < n - 1 → panelXEnd w n i - panelXStart w n i = w / n) ∧
    (i = n - 1 → panelXEnd w n i - panelXStart w n i = w - (n - 1) * (w / n)) ∧
    (i + 1 < n → panelXEnd w n i = panelXStart w n (i + 1)) := by
  refine ⟨rfl, ?_, ?_, ?_⟩
  · intro h
    have hne : i ≠ n - 1 := by omega
    simp only [panelXEnd, panelXStart, if_neg hne]
    rw [Nat.add_mul, Nat.one_mul, Nat.add_sub_cancel_left]
  · intro h
    subst h
    simp [panelXEnd, panelXStart]
  · intro h
    have hne : i ≠ n - 1 := by omega
    simp only [panelXEnd, panelXStart, if_neg hne]

/-- C6: in EXTEND mode AppCore::processMultiPanel slices the input into
numPanels horizontal regions of width floor(cols/numPanels), consecutive
regions abut, and the last panel's region absorbs the remainder columns; in
particular 3 panels on a 192-column input receive exactly the columns
[0,64), [64,128) and [128,192). -/
theorem extendMode_slicing (w n i : Nat) (hn : 1 ≤ n) (hi : i < n) :
    (panelXStart w n i = i * (w / n) ∧
     (i < n - 1 → panelXEnd w n i - panelXStart w n i = w / n) ∧
     (i = n - 1 → panelXEnd w n i = w ∧
        panelXEnd w n i - panelXStart w n i = w - (n - 1) * (w / n)) ∧
     (i + 1 < n → panelXEnd w n i = panelXStart w n (i + 1))) ∧
    (panelXStart 192 3 0 = 0 ∧ panelXEnd 192 3 0 = 64 ∧
     panelXStart 192 3 1 = 64 ∧ panelXEnd 192 3 1 = 128 ∧
     panelXStart 192 3 2 = 128 ∧ panelXEnd 192 3 2 = 192) := by
  obtain ⟨h1, h2, h3, h4⟩ := panelSlice_general w n i hn hi
  refine ⟨⟨h1, h2, ?_, h4⟩, by decide⟩
  intro h
  refine ⟨?_, h3 h⟩
  simp [panelXEnd, h]

theorem extendMode_slicing_witness :
    (1 ≤ 3 ∧ 1 < 3) ∧ panelXEnd 192 3 1 - panelXStart 192 3 1 = 192 / 3 :=
  ⟨by decide, ((extendMode_slicing 192 3 1 (by decide) (by decide)).1.2.1 (by decide))⟩

/-! ### Auto-cycling -/

theorem runAutoCycle_precount (rngs : Nat → Nat) (s : CycleState)
    (hen : s.autoCyclingEnabled = true)
    (htr : s.transitionFramesRemaining = 0)
    (hc : s.cycleFrameCounter = 0)
    (hF : 1 ≤ s.framesUntilNextMode) :
    ∀ k, k < s.framesUntilNextMode →
      runAutoCycle rngs s k = { s with cycleFrameCounter := k } := by
  intro k
  induction k with
  | zero =>
    intro _
    simp [runAutoCycle, ← hc]
  | succ k ih =>
    intro hk
    have hk' : k < s.framesUntilNextMode := by omega
    have hrun := ih hk'
    simp only [runAutoCycle, hrun]
    unfold updateAutoCycling
    simp only [hen, Bool.not_true, Bool.false_eq_true, if_false, htr]
    have hF0 : s.framesUntilNextMode ≠ 0 := by omega
    simp only [gt_iff_lt, Nat.lt_irrefl, if_false, hF0, if_neg]
    have : ¬ (k + 1 ≥ s.framesUntilNextMode) := by omega
    simp [this]

theorem runAutoCycle_append (rngs : Nat → Nat) (s : CycleState) (a b : Nat) :
    runAutoCycle rngs s (a + b) =
      runAutoCycle (fun i => rngs (a + i)) (runAutoCycle rngs s a) b := by
  induction b with
  | zero => rfl
  | succ b ih => simp [runAutoCycle, ih]

theorem runAutoCycle_switch (rngs : Nat → Nat) (s : CycleState)
    (hen : s.autoCyclingEnabled = true)
    (htr : s.transitionFramesRemaining = 0)
    (hc : s.cycleFrameCounter = 0)
    (hF : 1 ≤ s.framesUntilNextMode) :
    runAutoCycle rngs s s.framesUntilNextMode =
      { s with
          cycleFrameCounter := 0
          framesUntilNextMode := getRandomCycleInterval (rngs (s.framesUntilNextMode - 1))
          transitionFramesRemaining := TRANSITION_FRAMES
          previousMode := s.displayMode
          displayMode := s.displayMode.tmod 8 + 1
          transitionAlpha := 0 } := by
  have hsplit : s.framesUntilNextMode = (s.framesUntilNextMode - 1) + 1 := by omega
  rw [hsplit]
  have hpre := runAutoCycle_precount rngs s hen htr hc hF (s.framesUntilNextMode - 1)
    (by omega)
  simp only [runAutoCycle, hpre]
  unfold updateAutoCycling
  have hF0 : s.framesUntilNextMode ≠ 0 := by omega
  have hge : (s.framesUntilNextMode - 1) + 1 ≥ s.framesUntilNextMode := by omega
  simp [hen, htr, hF0, hge]

theorem runAutoCycle_transitionPhase (rngs : Nat → Nat) (t : CycleState)
    (hen : t.autoCyclingEnabled = true) (R : Nat)
    (hR : t.transitionFramesRemaining = R) :
    ∀ j, 1 ≤ j → j ≤ R →
      runAutoCycle rngs t j =
        { t with
            cycleFrameCounter := t.cycleFrameCounter + j
            transitionFramesRemaining := R - j
            transitionAlpha := 1 - ((R - j : Nat) : ℚ) / (TRANSITION_FRAMES : ℚ) } := by
  intro j
  induction j with
  | zero => omega
  | succ j ih =>
    intro _ hj
    rcases Nat.eq_zero_or_pos j with hj0 | hj1
    · subst hj0
      simp only [runAutoCycle]
      unfold updateAutoCycling
      have hpos : t.transitionFramesRemaining > 0 := by omega
      simp only [hen, Bool.not_true, Bool.false_eq_true, if_false, hpos, if_pos]
      have : t.transitionFramesRemaining - 1 = R - 1 := by omega
      simp [this]
    · have hrun := ih hj1 (by omega)
      simp only [runAutoCycle, hrun]
      unfold updateAutoCycling
      have hpos : R - j > 0 := by omega
      simp only [hen, Bool.not_true, Bool.false_eq_true, if_false]
      simp only [gt_iff_lt, hpos, if_pos]
      have h1 : R - j - 1 = R - (j + 1) := by omega
      simp [h1, Nat.add_assoc]

theorem castSubDiv_eq (R j : Nat) (hj : j ≤ R) (hR : R = 30) :
    1 - ((R - j : Nat) : ℚ) / (TRANSITION_FRAMES : ℚ) = (j : ℚ) / 30 := by
  subst hR
  have hcast : ((30 - j : Nat) : ℚ) = 30 - (j : ℚ) := by
    push_cast [hj]
    ring
  rw [hcast]
  show 1 - (30 - (j : ℚ)) / ((30 : Nat) : ℚ) = (j : ℚ) / 30
  norm_num
  ring

/-- C4: starting from transitionFramesRemaining = 0 with auto-cycling
enabled and a fresh cycle counter, updateAutoCycling performs the effect
switch at exactly the framesUntilNextMode-th per-frame update (and not
before), and over the 30 frames that follow the switch transitionAlpha is
computed as 1 - remaining/TRANSITION_FRAMES with TRANSITION_FRAMES = 30,
rising monotonically from 0 at the switch to 1 after 30 frames. -/
theorem autoCycle_transition_schedule (rngs : Nat → Nat) (s : CycleState)
    (hen : s.autoCyclingEnabled = true)
    (htr : s.transitionFramesRemaining = 0)
    (hc : s.cycleFrameCounter = 0)
    (hF : 1 ≤ s.framesUntilNextMode) :
    (∀ k, k < s.framesUntilNextMode →
        (runAutoCycle rngs s k).displayMode = s.displayMode ∧
        (runAutoCycle rngs s k).transitionFramesRemaining = 0) ∧
    ((runAutoCycle rngs s s.framesUntilNextMode).displayMode
        = s.displayMode.tmod 8 + 1 ∧
     (runAutoCycle rngs s s.framesUntilNextMode).previousMode = s.displayMode ∧
     (runAutoCycle rngs s s.framesUntilNextMode).transitionFramesRemaining
        = TRANSITION_FRAMES ∧
     (runAutoCycle rngs s s.framesUntilNextMode).transitionAlpha = 0) ∧
    (∀ j, 1 ≤ j → j ≤ TRANSITION_FRAMES →
        (runAutoCycle rngs s (s.framesUntilNextMode + j)).transitionFramesRemaining
            = TRANSITION_FRAMES - j ∧
        (runAutoCycle rngs s (s.framesUntilNextMode + j)).transitionAlpha
            = 1 - ((TRANSITION_FRAMES - j : Nat) : ℚ) / (TRANSITION_FRAMES : ℚ) ∧
        (runAutoCycle rngs s (s.framesUntilNextMode + j)).transitionAlpha
            = (j : ℚ) / 30) ∧
    (∀ j, 1 ≤ j → j < TRANSITION_FRAMES →
        (runAutoCycle rngs s (s.framesUntilNextMode + j)).transitionAlpha <
          (runAutoCycle rngs s (s.framesUntilNextMode + (j + 1))).transitionAlpha) ∧
    (runAutoCycle rngs s (s.framesUntilNextMode + TRANSITION_FRAMES)).transitionAlpha
        = 1 := by
  have hswitch := runAutoCycle_switch rngs s hen htr hc hF
  have hphase : ∀ j, 1 ≤ j → j ≤ TRANSITION_FRAMES →
      (runAutoCycle rngs s (s.framesUntilNextMode + j)).transitionFramesRemaining
          = TRANSITION_FRAMES - j ∧
      (runAutoCycle rngs s (s.framesUntilNextMode + j)).transitionAlpha
          = 1 - ((TRANSITION_FRAMES - j : Nat) : ℚ) / (TRANSITION_FRAMES : ℚ) ∧
      (runAutoCycle rngs s (s.framesUntilNextMode + j)).transitionAlpha
          = (j : ℚ) / 30 := by
    intro j hj1 hj30
    rw [runAutoCycle_append rngs s s.framesUntilNextMode j, hswitch]
    rw [runAutoCycle_transitionPhase _ _ (by simp [hen]) TRANSITION_FRAMES rfl j hj1 hj30]
    refine ⟨rfl, rfl, ?_⟩
    exact castSubDiv_eq TRANSITION_FRAMES j hj30 rfl
  refine ⟨?_, ?_, hphase, ?_, ?_⟩
  · intro k hk
    rw [runAutoCycle_precount rngs s hen htr hc hF k hk]
    exact ⟨rfl, htr⟩
  · rw [hswitch]
    exact ⟨rfl, rfl, rfl, rfl⟩
  · intro j hj1 hj30
    have h1 := (hphase j hj1 (by omega)).2.2
    have h2 := (hphase (j + 1) (by omega) (by omega)).2.2
    rw [h1, h2]
    have hlt : (j : ℚ) < ((j + 1 : Nat) : ℚ) := by exact_mod_cast Nat.lt_succ_self j
    gcongr
  · have h := (hphase TRANSITION_FRAMES (by norm_num [TRANSITION_FRAMES])
      (le_refl _)).2.2
    rw [h]
    norm_num [TRANSITION_FRAMES]

theorem autoCycle_transition_schedule_witness :
    (cycleProbeState.autoCyclingEnabled = true ∧
     cycleProbeState.transitionFramesRemaining = 0 ∧
     cycleProbeState.cycleFrameCounter = 0 ∧
     1 ≤ cycleProbeState.framesUntilNextMode) ∧
    (runAutoCycle (fun _ => 0) cycleProbeState
        (cycleProbeState.framesUntilNextMode + TRANSITION_FRAMES)).transitionAlpha = 1 :=
  ⟨⟨rfl, rfl, rfl, by decide⟩,
   (autoCycle_transition_schedule (fun _ => 0) cycleProbeState rfl rfl rfl
      (by decide)).2.2.2.2⟩

/-! ### Double exposure ring buffer -/

theorem expectedDEHistory_length (fs : List Frame) (h : fs.length ≠ 0) :
    (expectedDEHistory fs).length = MAX_FRAME_HISTORY := by
  simp [expectedDEHistory, h]

theorem expectedDEHistory_getElemQ (fs : List Frame) (h : fs.length ≠ 0)
    (i : Nat) (hi : i < MAX_FRAME_HISTORY) :
    (expectedDEHistory fs)[i]? = some ((slotLatest fs.length i).bind (fun j => fs[j]?)) := by
  simp only [expectedDEHistory, if_neg h, List.getElem?_map]
  rw [List.getElem?_range hi]
  rfl

theorem expectedDEHistory_snoc (fs : List Frame) (f : Frame) :
    expectedDEHistory (fs ++ [f]) =
      (if (expectedDEHistory fs).isEmpty then
          List.replicate MAX_FRAME_HISTORY (none : Option Frame)
        else expectedDEHistory fs).set
        (fs.length % MAX_FRAME_HISTORY) (some f) := by
  have hlen1 : (fs ++ [f]).length = fs.length + 1 := by simp
  rcases Nat.eq_zero_or_pos fs.length with h0 | hpos
  · have hfs : fs = [] := List.length_eq_zero.mp h0
    subst hfs
    have hrw : (if (expectedDEHistory ([] : List Frame)).isEmpty then
          List.replicate MAX_FRAME_HISTORY (none : Option Frame)
        else expectedDEHistory []) =
        List.replicate MAX_FRAME_HISTORY (none : Option Frame) := by
      simp [expectedDEHistory]
    rw [hrw]
    simp only [List.nil_append, List.length_nil, Nat.zero_mod]
    apply List.ext_getElem?
    intro n
    rcases Nat.lt_or_ge n MAX_FRAME_HISTORY with hn | hn
    · rw [expectedDEHistory_getElemQ [f] (by simp) n hn, List.getElem?_set]
      by_cases h0n : 0 = n
      · subst h0n
        rw [if_pos rfl, if_pos (by simp [List.length_replicate, MAX_FRAME_HISTORY])]
        simp [slotLatest]
      · rw [if_neg h0n, List.getElem?_replicate, if_pos hn]
        have hsl : slotLatest [f].length n = none := by
          simp only [slotLatest, List.length_singleton]
          rw [if_neg (by omega)]
        rw [hsl]
        rfl
    · rw [List.getElem?_eq_none
          (by rw [expectedDEHistory_length [f] (by simp)]; omega),
        List.getElem?_eq_none
          (by rw [List.length_set, List.length_replicate]; omega)]
  · have hne : fs.length ≠ 0 := by omega
    have hempty : (expectedDEHistory fs).isEmpty = false := by
      have hl90 := expectedDEHistory_length fs hne
      rcases hl : expectedDEHistory fs with _ | ⟨a, l⟩
      · rw [hl] at hl90
        simp [MAX_FRAME_HISTORY] at hl90
      · rfl
    have hrw : (if (expectedDEHistory fs).isEmpty then
          List.replicate MAX_FRAME_HISTORY (none : Option Frame)
        else expectedDEHistory fs) = expectedDEHistory fs := by
      rw [hempty]
      simp
    rw [hrw]
    apply List.ext_getElem?
    intro n
    rcases Nat.lt_or_ge n MAX_FRAME_HISTORY with hn | hn
    · rw [expectedDEHistory_getElemQ (fs ++ [f]) (by simp) n hn]
      rw [List.getElem?_set]
      by_cases heq : fs.length % MAX_FRAME_HISTORY = n
      · rw [if_pos heq, if_pos (by
          rw [expectedDEHistory_length fs hne]
          simp only [MAX_FRAME_HISTORY] at hn ⊢
          omega)]
        have hjstar : slotLatest (fs ++ [f]).length n = some fs.length := by
          simp only [slotLatest, hlen1]
          rw [if_pos (by simp only [MAX_FRAME_HISTORY] at heq; omega)]
          congr 1
          simp only [MAX_FRAME_HISTORY] at heq hn ⊢
          omega
        rw [hjstar, Option.some_bind, List.getElem?_concat_length]
      · rw [if_neg heq]
        rw [expectedDEHistory_getElemQ fs hne n hn]
        rcases Nat.lt_or_ge n fs.length with hlt | hge
        · have hsame : slotLatest (fs ++ [f]).length n = slotLatest fs.length n := by
            simp only [slotLatest, hlen1]
            rw [if_pos (by omega), if_pos hlt]
            congr 2
            simp only [MAX_FRAME_HISTORY] at heq hn ⊢
            omega
          rw [hsame]
          simp only [slotLatest, if_pos hlt, Option.some_bind]
          have hjlt : n + MAX_FRAME_HISTORY * ((fs.length - 1 - n) / MAX_FRAME_HISTORY)
              < fs.length := by
            simp only [MAX_FRAME_HISTORY] at heq hn ⊢
            omega
          rw [List.getElem?_append_left hjlt]
        · have hno : slotLatest (fs ++ [f]).length n = none := by
            simp only [slotLatest, hlen1]
            rw [if_neg ?_]
            simp only [MAX_FRAME_HISTORY] at heq hn ⊢
            omega
          have hno2 : slotLatest fs.length n = none := by
            simp only [slotLatest]
            rw [if_neg (by omega)]
          rw [hno, hno2]
          rfl
    · rw [List.getElem?_eq_none
          (by rw [expectedDEHistory_length (fs ++ [f]) (by simp)]; omega),
        List.getElem?_eq_none
          (by rw [List.length_set, expectedDEHistory_length fs hne]; omega)]

theorem runDE_append (rngs : Nat → Nat) (masks : Nat → Mask) (fs gs : List Frame)
    (s : DEState) :
    runDoubleExposure rngs masks (fs ++ gs) s =
      match runDoubleExposure rngs masks fs s with
      | .error e => .error e
      | .ok (outs, s1) =>
        match runDoubleExposure (fun i => rngs (fs.length + i))
            (fun i => masks (fs.length + i)) gs s1 with
        | .error e => .error e
        | .ok (outs2, s2) => .ok (outs ++ outs2, s2) := by
  induction fs generalizing rngs masks s with
  | nil =>
    simp only [List.nil_append, List.length_nil, Nat.zero_add, runDoubleExposure]
    cases hres : runDoubleExposure rngs masks gs s with
    | error e => simp
    | ok p => simp
  | cons f fs ih =>
    simp only [List.cons_append, List.length_cons, runDoubleExposure]
    cases hstep : processDoubleExposureWithState (rngs 0) (masks 0) f s with
    | error e => rfl
    | ok p =>
      obtain ⟨out, s1⟩ := p
      simp only [List.append_eq]
      rw [ih]
      have hr : (fun i => (fun i => rngs (i + 1)) (fs.length + i))
          = fun i => rngs (fs.length + 1 + i) := by
        funext i
        show rngs (fs.length + i + 1) = rngs (fs.length + 1 + i)
        congr 1
        omega
      have hm : (fun i => (fun i => masks (i + 1)) (fs.length + i))
          = fun i => masks (fs.length + 1 + i) := by
        funext i
        show masks (fs.length + i + 1) = masks (fs.length + 1 + i)
        congr 1
        omega
      rw [hr, hm]
      cases hres : runDoubleExposure (fun i => rngs (i + 1)) (fun i => masks (i + 1)) fs s1 with
      | error e => rfl
      | ok q =>
        obtain ⟨outs, s2⟩ := q
        simp only []
        cases hres2 : runDoubleExposure (fun i => rngs (fs.length + 1 + i))
            (fun i => masks (fs.length + 1 + i)) gs s2 with
        | error e => rfl
        | ok r =>
          obtain ⟨outs2, s3⟩ := r
          rfl

theorem expectedDEHistory_read (fs : List Frame) (f : Frame) (o : Nat)
    (ho1 : MIN_TIME_OFFSET ≤ o) (ho2 : o ≤ MAX_TIME_OFFSET) :
    (expectedDEHistory (fs ++ [f])).getD
        (((fs.length + 1) % MAX_FRAME_HISTORY + MAX_FRAME_HISTORY - o) % MAX_FRAME_HISTORY)
        none =
      if fs.length + 1 < o then none
      else some (fs.getD (fs.length + 1 - o) default) := by
  simp only [MIN_TIME_OFFSET, MAX_TIME_OFFSET] at ho1 ho2
  have hp : ((fs.length + 1) % MAX_FRAME_HISTORY + MAX_FRAME_HISTORY - o) % MAX_FRAME_HISTORY
      < MAX_FRAME_HISTORY := by
    simp only [MAX_FRAME_HISTORY]
    omega
  rw [List.getD_eq_getElem?_getD,
    expectedDEHistory_getElemQ (fs ++ [f]) (by simp) _ hp]
  by_cases hlt : fs.length + 1 < o
  · rw [if_pos hlt]
    have hnone : slotLatest (fs ++ [f]).length
        (((fs.length + 1) % MAX_FRAME_HISTORY + MAX_FRAME_HISTORY - o) % MAX_FRAME_HISTORY)
        = none := by
      simp only [slotLatest, List.length_append, List.length_singleton, MAX_FRAME_HISTORY]
      rw [if_neg (by omega)]
    rw [hnone]
    rfl
  · rw [if_neg hlt]
    have hsome : slotLatest (fs ++ [f]).length
        (((fs.length + 1) % MAX_FRAME_HISTORY + MAX_FRAME_HISTORY - o) % MAX_FRAME_HISTORY)
        = some (fs.length + 1 - o) := by
      simp only [slotLatest, List.length_append, List.length_singleton, MAX_FRAME_HISTORY]
      rw [if_pos (by omega)]
      congr 1
      omega
    rw [hsome, Option.some_bind]
    have hjlt : fs.length + 1 - o < fs.length := by omega
    rw [List.getElem?_append_left hjlt, List.getElem?_eq_getElem hjlt,
      List.getD_eq_getElem fs default hjlt]
    simp

theorem processDE_step (o : Nat) (ho1 : MIN_TIME_OFFSET ≤ o) (ho2 : o ≤ MAX_TIME_OFFSET)
    (mask : Mask) (f : Frame) (fs : List Frame) :
    processDoubleExposureWithState (o - MIN_TIME_OFFSET) mask f (stateAfterDE o fs) =
      if fs.length + 1 < o then .ok (f, stateAfterDE o (fs ++ [f]))
      else
        match addWeighted2575 f (fs.getD (fs.length + 1 - o) default) with
        | .ok blended => .ok (maskedCopyTo mask f blended, stateAfterDE o (fs ++ [f]))
        | .error e => .error e := by
  simp only [processDoubleExposureWithState, stateAfterDE]
  rw [← expectedDEHistory_snoc fs f]
  have h2 : (fs.length % MAX_FRAME_HISTORY + 1) % MAX_FRAME_HISTORY
      = (fs.length + 1) % MAX_FRAME_HISTORY := by
    simp only [MAX_FRAME_HISTORY]
    omega
  rw [h2]
  have h3 : (if fs.length % 60 + 1 ≥ 60 then 0 else fs.length % 60 + 1)
      = (fs.length + 1) % 60 := by
    by_cases h : fs.length % 60 + 1 ≥ 60
    · rw [if_pos h]
      omega
    · rw [if_neg h]
      omega
  have h4 : (if fs.length % 60 + 1 ≥ 60 then
        MIN_TIME_OFFSET + (o - MIN_TIME_OFFSET) % (MAX_TIME_OFFSET - MIN_TIME_OFFSET + 1)
      else o) = o := by
    by_cases h : fs.length % 60 + 1 ≥ 60
    · rw [if_pos h]
      simp only [MIN_TIME_OFFSET, MAX_TIME_OFFSET] at ho1 ho2 ⊢
      omega
    · rw [if_neg h]
  rw [h3, h4]
  rw [expectedDEHistory_read fs f o ho1 ho2]
  by_cases hlt : fs.length + 1 < o
  · rw [if_pos hlt, if_pos hlt]
    have hlen : (fs ++ [f]).length = fs.length + 1 := by simp
    rw [hlen]
  · rw [if_neg hlt, if_neg hlt]
    have hlen : (fs ++ [f]).length = fs.length + 1 := by simp
    rw [hlen]

theorem expectedDEOutput_snoc_lt (masks : Nat → Mask) (o : Nat) (fs : List Frame)
    (f : Frame) (k : Nat) (ho : 1 ≤ o) (hk : k < fs.length) :
    expectedDEOutput masks o (fs ++ [f]) k = expectedDEOutput masks o fs k := by
  simp only [expectedDEOutput]
  rw [List.getD_append fs [f] default k hk]
  by_cases h : k + 1 < o
  · rw [if_pos h, if_pos h]
  · rw [if_neg h, if_neg h]
    rw [List.getD_append fs [f] default (k + 1 - o) (by omega)]

theorem expectedDEOutputs_snoc (masks : Nat → Mask) (o : Nat) (fs : List Frame)
    (f : Frame) (ho : 1 ≤ o) :
    expectedDEOutputs masks o (fs ++ [f]) =
      expectedDEOutputs masks o fs
        ++ [expectedDEOutput masks o (fs ++ [f]) fs.length] := by
  simp only [expectedDEOutputs, List.length_append, List.length_singleton,
    List.range_succ, List.map_append, List.map_cons, List.map_nil]
  congr 1
  apply List.map_congr_left
  intro k hk
  exact expectedDEOutput_snoc_lt masks o fs f k ho (List.mem_range.mp hk)

theorem expectedDEOutput_last (masks : Nat → Mask) (o : Nat) (fs : List Frame)
    (f : Frame) (ho1 : MIN_TIME_OFFSET ≤ o) :
    expectedDEOutput masks o (fs ++ [f]) fs.length =
      if fs.length + 1 < o then f
      else
        maskedCopyTo (masks fs.length) f
          ⟨f.rows, f.cols, blendData f.data (fs.getD (fs.length + 1 - o) default).data⟩ := by
  simp only [expectedDEOutput]
  have hcur : (fs ++ [f]).getD fs.length default = f := by
    rw [List.getD_eq_getElem?_getD, List.getElem?_concat_length]
    rfl
  rw [hcur]
  by_cases h : fs.length + 1 < o
  · rw [if_pos h, if_pos h]
  · rw [if_neg h, if_neg h]
    rw [List.getD_append fs [f] default (fs.length + 1 - o)
      (by simp only [MIN_TIME_OFFSET] at ho1; omega)]

theorem runDE_characterize (o r c : Nat)
    (ho1 : MIN_TIME_OFFSET ≤ o) (ho2 : o ≤ MAX_TIME_OFFSET)
    (masks : Nat → Mask) (fs : List Frame)
    (hdim : ∀ f ∈ fs, f.rows = r ∧ f.cols = c) :
    runDoubleExposure (fun _ => o - MIN_TIME_OFFSET) masks fs ⟨[], 0, 0, o⟩ =
      .ok (expectedDEOutputs masks o fs, stateAfterDE o fs) := by
  induction fs using List.reverseRecOn with
  | nil =>
    simp [runDoubleExposure, expectedDEOutputs, stateAfterDE, expectedDEHistory]
  | append_singleton fs f ih =>
    have hdimfs : ∀ g ∈ fs, g.rows = r ∧ g.cols = c := by
      intro g hg
      exact hdim g (by simp [hg])
    have hdimf : f.rows = r ∧ f.cols = c := hdim f (by simp)
    rw [runDE_append, ih hdimfs]
    have hshift : (fun i => (fun _ => o - MIN_TIME_OFFSET : Nat → Nat) (fs.length + i))
        = (fun _ => o - MIN_TIME_OFFSET : Nat → Nat) := rfl
    simp only [hshift]
    have hone : runDoubleExposure (fun _ => o - MIN_TIME_OFFSET)
        (fun i => masks (fs.length + i)) [f] (stateAfterDE o fs) =
        match processDoubleExposureWithState (o - MIN_TIME_OFFSET) (masks (fs.length + 0))
            f (stateAfterDE o fs) with
        | .error e => .error e
        | .ok (out, s1) => .ok ([out], s1) := by
      simp only [runDoubleExposure]
    rw [hone]
    rw [Nat.add_zero]
    rw [processDE_step o ho1 ho2 (masks fs.length) f fs]
    rw [expectedDEOutputs_snoc masks o fs f
        (by simp only [MIN_TIME_OFFSET] at ho1; omega),
      expectedDEOutput_last masks o fs f ho1]
    by_cases hlt : fs.length + 1 < o
    · rw [if_pos hlt, if_pos hlt]
    · rw [if_neg hlt, if_neg hlt]
      have hjlt : fs.length + 1 - o < fs.length := by
        simp only [MIN_TIME_OFFSET, MAX_TIME_OFFSET] at ho1 ho2
        omega
      have hpastdim : (fs.getD (fs.length + 1 - o) default).rows = r ∧
          (fs.getD (fs.length + 1 - o) default).cols = c := by
        rw [List.getD_eq_getElem fs default hjlt]
        exact hdimfs _ (List.getElem_mem hjlt)
      have hok : addWeighted2575 f (fs.getD (fs.length + 1 - o) default) =
          .ok ⟨f.rows, f.cols,
            blendData f.data (fs.getD (fs.length + 1 - o) default).data⟩ := by
        simp only [addWeighted2575]
        rw [if_pos ⟨by rw [hdimf.1, hpastdim.1], by rw [hdimf.2, hpastdim.2]⟩]
      rw [hok]

/-- C3 (amended): with the current time offset o in [15,75], once at least o
frames have been written the double-exposure tick blends the current frame
(under the foreground mask) with the frame written o-1 ticks earlier - the
(n-o+1)-th written frame after n writes, at ring slot index minus offset -
and while fewer than o frames have been written the current frame passes
through unchanged. -/
theorem doubleExposure_ringBuffer_read (o r c : Nat) (masks : Nat → Mask)
    (fs : List Frame)
    (ho1 : MIN_TIME_OFFSET ≤ o) (ho2 : o ≤ MAX_TIME_OFFSET)
    (hdim : ∀ f ∈ fs, f.rows = r ∧ f.cols = c) :
    ∃ outs s,
      runDoubleExposure (fun _ => o - MIN_TIME_OFFSET) masks fs ⟨[], 0, 0, o⟩
          = .ok (outs, s) ∧
      outs.length = fs.length ∧
      (∀ k, k < fs.length → k + 1 < o → outs[k]? = fs[k]?) ∧
      (∀ k, k < fs.length → o ≤ k + 1 →
        outs[k]? = some (maskedCopyTo (masks k) (fs.getD k default)
          ⟨(fs.getD k default).rows, (fs.getD k default).cols,
            blendData (fs.getD k default).data
              (fs.getD (k + 1 - o) default).data⟩)) := by
  refine ⟨expectedDEOutputs masks o fs, stateAfterDE o fs,
    runDE_characterize o r c ho1 ho2 masks fs hdim, ?_, ?_, ?_⟩
  · simp [expectedDEOutputs]
  · intro k hk hko
    have hget : (expectedDEOutputs masks o fs)[k]?
        = some (expectedDEOutput masks o fs k) := by
      simp only [expectedDEOutputs, List.getElem?_map]
      rw [List.getElem?_range hk]
      rfl
    rw [hget]
    simp only [expectedDEOutput, if_pos hko]
    rw [List.getElem?_eq_getElem hk, List.getD_eq_getElem fs default hk]
  · intro k hk hko
    have hget : (expectedDEOutputs masks o fs)[k]?
        = some (expectedDEOutput masks o fs k) := by
      simp only [expectedDEOutputs, List.getElem?_map]
      rw [List.getElem?_range hk]
      rfl
    rw [hget]
    simp only [expectedDEOutput, if_neg (by omega : ¬ k + 1 < o)]

/-- C3 counterexample to the claim as stated: after 16 writes with offset
o = 15, the blended past frame is deProbeFrames[1] (blue value 10, written
14 ticks earlier), not deProbeFrames[0] (blue value 0, written 15 ticks
earlier) as the claim asserts. -/
theorem doubleExposure_claim_counterexample :
    deCexRun.map (fun p => p.1.getD 15 default)
        = .ok (maskedCopyTo fullMask1 (constFrame1 150)
            ⟨1, 1, blendData (constFrame1 150).data (constFrame1 10).data⟩) ∧
    deCexRun.map (fun p => p.1.getD 15 default)
        ≠ .ok (maskedCopyTo fullMask1 (constFrame1 150)
            ⟨1, 1, blendData (constFrame1 150).data (constFrame1 0).data⟩) := by
  constructor
  · decide
  · decide

theorem doubleExposure_ringBuffer_read_witness :
    (MIN_TIME_OFFSET ≤ 15 ∧ 15 ≤ MAX_TIME_OFFSET ∧
      (∀ f ∈ deProbeFrames 16, f.rows = 1 ∧ f.cols = 1)) ∧
    (∃ outs s,
      runDoubleExposure (fun _ => 15 - MIN_TIME_OFFSET) (fun _ => fullMask1)
          (deProbeFrames 16) ⟨[], 0, 0, 15⟩ = .ok (outs, s) ∧
      outs.length = (deProbeFrames 16).length ∧
      (∀ k, k < (deProbeFrames 16).length → k + 1 < 15 →
        outs[k]? = (deProbeFrames 16)[k]?) ∧
      (∀ k, k < (deProbeFrames 16).length → 15 ≤ k + 1 →
        outs[k]? = some (maskedCopyTo fullMask1 ((deProbeFrames 16).getD k default)
          ⟨((deProbeFrames 16).getD k default).rows,
            ((deProbeFrames 16).getD k default).cols,
            blendData ((deProbeFrames 16).getD k default).data
              ((deProbeFrames 16).getD (k + 1 - 15) default).data⟩))) :=
  ⟨⟨by decide, by decide, by decide⟩,
    doubleExposure_ringBuffer_read 15 1 1 (fun _ => fullMask1) (deProbeFrames 16)
      (by decide) (by decide) (by decide)⟩

/-! ### Global versus per-panel processing -/

/-- C7 counterexample: on a contour of area 700 (between the per-panel
threshold 500 and the global threshold 1000) the per-panel filled
silhouette paints the contour while the global path leaves the canvas
black, so the two code paths do not compute the same function on equal
inputs and buffer state. -/
theorem panelVsGlobal_counterexample :
    processPanelRegionFilledSilhouette 1 1 [midAreaContour]
      ≠ processFilledSilhouette 1 1 [midAreaContour] := by
  decide

/-- C7 (amended): the global and per-panel filled-silhouette paths share
the pipeline (MOG2 mask, findPersonContours, filled white contours on a
zeroed canvas) but pass different minimum contour areas (1000 globally,
500 per panel); on the same extracted contours and equal buffer state the
outputs agree exactly when no contour's area lies in (500, 1000]. -/
theorem panelVsGlobal_filledSilhouette (r c : Nat) (contours : List Contour)
    (h : ∀ ct ∈ contours, ct.area ≤ 500 ∨ 1000 < ct.area) :
    processPanelRegionFilledSilhouette r c contours
      = processFilledSilhouette r c contours := by
  unfold processPanelRegionFilledSilhouette processFilledSilhouette
  congr 1
  unfold findPersonContours
  apply List.filter_congr
  intro ct hct
  rcases h ct hct with hle | hgt
  · have h1 : ¬ ((500 : ℚ) < ct.area) := by linarith
    have h2 : ¬ ((1000 : ℚ) < ct.area) := by linarith
    simp [h1, h2]
  · have h1 : (500 : ℚ) < ct.area := by linarith
    simp [h1, hgt]

theorem panelVsGlobal_filledSilhouette_witness :
    (∀ ct ∈ [Contour.mk 1500 [(0, 0)] [], Contour.mk 200 [(0, 1)] []],
        ct.area ≤ 500 ∨ 1000 < ct.area) ∧
    processPanelRegionFilledSilhouette 1 2
        [Contour.mk 1500 [(0, 0)] [], Contour.mk 200 [(0, 1)] []]
      = processFilledSilhouette 1 2
        [Contour.mk 1500 [(0, 0)] [], Contour.mk 200 [(0, 1)] []] :=
  ⟨by decide,
    panelVsGlobal_filledSilhouette 1 2
      [Contour.mk 1500 [(0, 0)] [], Contour.mk 200 [(0, 1)] []]
      (by decide)⟩

/-! ### Oval-chain rendering order -/

theorem renderBackPass_shape (cols rows : Nat) (ls : List OvalLink) :
    ∀ i cmd, cmd ∈ renderBackPass cols rows i ls → ∃ k, cmd = DrawCmd.backHalf k := by
  induction ls with
  | nil =>
    intro i cmd h
    simp [renderBackPass] at h
  | cons l ls ih =>
    intro i cmd h
    rcases List.mem_append.mp h with h | h
    · split at h
      · split at h
        · simp at h
          exact ⟨i, h⟩
        · simp at h
      · simp at h
    · exact ih (i + 1) cmd h

theorem renderFullPass_shape (cols rows : Nat) (ls : List OvalLink) :
    ∀ i cmd, cmd ∈ renderFullPass cols rows i ls → ∃ k, cmd = DrawCmd.fullLink k := by
  induction ls with
  | nil =>
    intro i cmd h
    simp [renderFullPass] at h
  | cons l ls ih =>
    intro i cmd h
    rcases List.mem_append.mp h with h | h
    · split at h
      · split at h
        · simp at h
          exact ⟨i, h⟩
        · simp at h
      · simp at h
    · exact ih (i + 1) cmd h

theorem renderFrontPass_shape (cols rows : Nat) (ls : List OvalLink) :
    ∀ i cmd, cmd ∈ renderFrontPass cols rows i ls → ∃ k, cmd = DrawCmd.frontHalf k := by
  induction ls with
  | nil =>
    intro i cmd h
    simp [renderFrontPass] at h
  | cons l ls ih =>
    intro i cmd h
    rcases List.mem_append.mp h with h | h
    · split at h
      · split at h
        · simp at h
          exact ⟨i, h⟩
        · simp at h
      · simp at h
    · exact ih (i + 1) cmd h

theorem renderBackPass_mem (cols rows : Nat) (ls : List OvalLink) :
    ∀ i m, DrawCmd.backHalf m ∈ renderBackPass cols rows i ls ↔
      ∃ k l, ls[k]? = some l ∧ m = i + k ∧ linkVisible cols rows l = true ∧
        m % 2 = 0 := by
  induction ls with
  | nil =>
    intro i m
    simp [renderBackPass]
  | cons l ls ih =>
    intro i m
    simp only [renderBackPass, List.mem_append]
    constructor
    · intro h
      rcases h with h | h
      · by_cases hv : linkVisible cols rows l = true
        · rw [if_pos hv] at h
          by_cases hp : i % 2 = 0
          · rw [if_pos hp] at h
            simp at h
            subst h
            exact ⟨0, l, by simp, by omega, hv, hp⟩
          · rw [if_neg hp] at h
            simp at h
        · rw [if_neg hv] at h
          simp at h
      · rcases (ih (i + 1) m).mp h with ⟨k, lk, hget, hm, hvis, hpar⟩
        exact ⟨k + 1, lk, by simpa using hget, by omega, hvis, hpar⟩
    · rintro ⟨k, lk, hget, hm, hvis, hpar⟩
      cases k with
      | zero =>
        have hl : lk = l := by
          simp at hget
          exact hget.symm
        subst hl
        left
        have hmi : m = i := by omega
        subst hmi
        rw [if_pos hvis, if_pos hpar]
        simp
      | succ k =>
        right
        exact (ih (i + 1) m).mpr ⟨k, lk, by simpa using hget, by omega, hvis, hpar⟩

theorem renderFullPass_mem (cols rows : Nat) (ls : List OvalLink) :
    ∀ i m, DrawCmd.fullLink m ∈ renderFullPass cols rows i ls ↔
      ∃ k l, ls[k]? = some l ∧ m = i + k ∧ linkVisible cols rows l = true ∧
        m % 2 = 1 := by
  induction ls with
  | nil =>
    intro i m
    simp [renderFullPass]
  | cons l ls ih =>
    intro i m
    simp only [renderFullPass, List.mem_append]
    constructor
    · intro h
      rcases h with h | h
      · by_cases hp : i % 2 = 1
        · rw [if_pos hp] at h
          by_cases hv : linkVisible cols rows l = true
          · rw [if_pos hv] at h
            simp at h
            subst h
            exact ⟨0, l, by simp, by omega, hv, hp⟩
          · rw [if_neg hv] at h
            simp at h
        · rw [if_neg hp] at h
          simp at h
      · rcases (ih (i + 1) m).mp h with ⟨k, lk, hget, hm, hvis, hpar⟩
        exact ⟨k + 1, lk, by simpa using hget, by omega, hvis, hpar⟩
    · rintro ⟨k, lk, hget, hm, hvis, hpar⟩
      cases k with
      | zero =>
        have hl : lk = l := by
          simp at hget
          exact hget.symm
        subst hl
        left
        have hmi : m = i := by omega
        subst hmi
        rw [if_pos hpar, if_pos hvis]
        simp
      | succ k =>
        right
        exact (ih (i + 1) m).mpr ⟨k, lk, by simpa using hget, by omega, hvis, hpar⟩

theorem renderFrontPass_mem (cols rows : Nat) (ls : List OvalLink) :
    ∀ i m, DrawCmd.frontHalf m ∈ renderFrontPass cols rows i ls ↔
      ∃ k l, ls[k]? = some l ∧ m = i + k ∧ linkVisible cols rows l = true ∧
        m % 2 = 0 := by
  induction ls with
  | nil =>
    intro i m
    simp [renderFrontPass]
  | cons l ls ih =>
    intro i m
    simp only [renderFrontPass, List.mem_append]
    constructor
    · intro h
      rcases h with h | h
      · by_cases hp : i % 2 = 0
        · rw [if_pos hp] at h
          by_cases hv : linkVisible cols rows l = true
          · rw [if_pos hv] at h
            simp at h
            subst h
            exact ⟨0, l, by simp, by omega, hv, hp⟩
          · rw [if_neg hv] at h
            simp at h
        · rw [if_neg hp] at h
          simp at h
      · rcases (ih (i + 1) m).mp h with ⟨k, lk, hget, hm, hvis, hpar⟩
        exact ⟨k + 1, lk, by simpa using hget, by omega, hvis, hpar⟩
    · rintro ⟨k, lk, hget, hm, hvis, hpar⟩
      cases k with
      | zero =>
        have hl : lk = l := by
          simp at hget
          exact hget.symm
        subst hl
        left
        have hmi : m = i := by omega
        subst hmi
        rw [if_pos hpar, if_pos hvis]
        simp
      | succ k =>
        right
        exact (ih (i + 1) m).mpr ⟨k, lk, by simpa using hget, by omega, hvis, hpar⟩

/-- C8: renderChain issues its draw calls in three strictly ordered phases
- every back half of an on-screen even-indexed link, then every on-screen
odd-indexed link in full, then every front half of an on-screen
even-indexed link on top - and exactly those calls, which is what lets
odd-indexed links appear to pass through the holes of even-indexed ones. -/
theorem ovalChain_renderOrder (cols rows : Nat) (links : List OvalLink) :
    (∀ i j a b : Nat, (renderChain cols rows links)[i]? = some (DrawCmd.backHalf a) →
        (renderChain cols rows links)[j]? = some (DrawCmd.fullLink b) → i < j) ∧
    (∀ i j a b : Nat, (renderChain cols rows links)[i]? = some (DrawCmd.fullLink a) →
        (renderChain cols rows links)[j]? = some (DrawCmd.frontHalf b) → i < j) ∧
    (∀ i j a b : Nat, (renderChain cols rows links)[i]? = some (DrawCmd.backHalf a) →
        (renderChain cols rows links)[j]? = some (DrawCmd.frontHalf b) → i < j) ∧
    (∀ k, DrawCmd.backHalf k ∈ renderChain cols rows links ↔
        ∃ l, links[k]? = some l ∧ linkVisible cols rows l = true ∧ k % 2 = 0) ∧
    (∀ k, DrawCmd.fullLink k ∈ renderChain cols rows links ↔
        ∃ l, links[k]? = some l ∧ linkVisible cols rows l = true ∧ k % 2 = 1) ∧
    (∀ k, DrawCmd.frontHalf k ∈ renderChain cols rows links ↔
        ∃ l, links[k]? = some l ∧ linkVisible cols rows l = true ∧ k % 2 = 0) := by
  by_cases hemp : links.isEmpty = true
  · have hnil : links = [] := List.isEmpty_iff.mp hemp
    subst hnil
    have hchain : renderChain cols rows ([] : List OvalLink) = [] := by
      simp [renderChain]
    refine ⟨?_, ?_, ?_, ?_, ?_, ?_⟩ <;> simp [hchain]
  · have hchain : renderChain cols rows links =
        renderBackPass cols rows 0 links ++
          (renderFullPass cols rows 0 links ++ renderFrontPass cols rows 0 links) := by
      simp only [renderChain, if_neg hemp]
      rw [List.append_assoc]
    have hAlen : ∀ {i a}, (renderChain cols rows links)[i]? = some (DrawCmd.backHalf a) →
        i < (renderBackPass cols rows 0 links).length := by
      intro i a hi
      by_contra hge
      push_neg at hge
      rw [hchain, List.getElem?_append_right hge] at hi
      have hmem := List.getElem?_mem hi
      rcases List.mem_append.mp hmem with hm | hm
      · rcases renderFullPass_shape cols rows links 0 _ hm with ⟨k, hk⟩
        simp at hk
      · rcases renderFrontPass_shape cols rows links 0 _ hm with ⟨k, hk⟩
        simp at hk
    have hBband : ∀ {i a}, (renderChain cols rows links)[i]? = some (DrawCmd.fullLink a) →
        (renderBackPass cols rows 0 links).length ≤ i ∧
          i < (renderBackPass cols rows 0 links).length
            + (renderFullPass cols rows 0 links).length := by
      intro i a hi
      constructor
      · by_contra hlt
        push_neg at hlt
        rw [hchain, List.getElem?_append_left hlt] at hi
        rcases renderBackPass_shape cols rows links 0 _ (List.getElem?_mem hi) with ⟨k, hk⟩
        simp at hk
      · by_contra hge
        push_neg at hge
        rw [hchain, List.getElem?_append_right (by omega)] at hi
        rw [List.getElem?_append_right (by omega)] at hi
        rcases renderFrontPass_shape cols rows links 0 _ (List.getElem?_mem hi) with ⟨k, hk⟩
        simp at hk
    have hClen : ∀ {j b}, (renderChain cols rows links)[j]? = some (DrawCmd.frontHalf b) →
        (renderBackPass cols rows 0 links).length
          + (renderFullPass cols rows 0 links).length ≤ j := by
      intro j b hj
      by_contra hlt
      push_neg at hlt
      rw [hchain] at hj
      rcases Nat.lt_or_ge j (renderBackPass cols rows 0 links).length with hj1 | hj1
      · rw [List.getElem?_append_left hj1] at hj
        rcases renderBackPass_shape cols rows links 0 _ (List.getElem?_mem hj) with ⟨k, hk⟩
        simp at hk
      · rw [List.getElem?_append_right hj1,
          List.getElem?_append_left (by omega)] at hj
        rcases renderFullPass_shape cols rows links 0 _ (List.getElem?_mem hj) with ⟨k, hk⟩
        simp at hk
    refine ⟨?_, ?_, ?_, ?_, ?_, ?_⟩
    · intro i j a b hi hj
      have h1 := hAlen hi
      have h2 := (hBband hj).1
      omega
    · intro i j a b hi hj
      have h1 := (hBband hi).2
      have h2 := hClen hj
      omega
    · intro i j a b hi hj
      have h1 := hAlen hi
      have h2 := hClen hj
      have h3 : (0 : Nat) ≤ (renderFullPass cols rows 0 links).length := Nat.zero_le _
      omega
    · intro k
      rw [hchain]
      constructor
      · intro hmem
        rcases List.mem_append.mp hmem with hm | hm
        · rcases (renderBackPass_mem cols rows links 0 k).mp hm with
            ⟨k', l, hget, hk, hvis, hpar⟩
          exact ⟨l, by rwa [show k' = k by omega] at hget, hvis, hpar⟩
        · rcases List.mem_append.mp hm with hm2 | hm2
          · rcases renderFullPass_shape cols rows links 0 _ hm2 with ⟨k', hk'⟩
            simp at hk'
          · rcases renderFrontPass_shape cols rows links 0 _ hm2 with ⟨k', hk'⟩
            simp at hk'
      · rintro ⟨l, hget, hvis, hpar⟩
        exact List.mem_append.mpr (Or.inl
          ((renderBackPass_mem cols rows links 0 k).mpr
            ⟨k, l, hget, by omega, hvis, hpar⟩))
    · intro k
      rw [hchain]
      constructor
      · intro hmem
        rcases List.mem_append.mp hmem with hm | hm
        · rcases renderBackPass_shape cols rows links 0 _ hm with ⟨k', hk'⟩
          simp at hk'
        · rcases List.mem_append.mp hm with hm2 | hm2
          · rcases (renderFullPass_mem cols rows links 0 k).mp hm2 with
              ⟨k', l, hget, hk, hvis, hpar⟩
            exact ⟨l, by rwa [show k' = k by omega] at hget, hvis, hpar⟩
          · rcases renderFrontPass_shape cols rows links 0 _ hm2 with ⟨k', hk'⟩
            simp at hk'
      · rintro ⟨l, hget, hvis, hpar⟩
        exact List.mem_append.mpr (Or.inr (List.mem_append.mpr (Or.inl
          ((renderFullPass_mem cols rows links 0 k).mpr
            ⟨k, l, hget, by omega, hvis, hpar⟩))))
    · intro k
      rw [hchain]
      constructor
      · intro hmem
        rcases List.mem_append.mp hmem with hm | hm
        · rcases renderBackPass_shape cols rows links 0 _ hm with ⟨k', hk'⟩
          simp at hk'
        · rcases List.mem_append.mp hm with hm2 | hm2
          · rcases renderFullPass_shape cols rows links 0 _ hm2 with ⟨k', hk'⟩
            simp at hk'
          · rcases (renderFrontPass_mem cols rows links 0 k).mp hm2 with
              ⟨k', l, hget, hk, hvis, hpar⟩
            exact ⟨l, by rwa [show k' = k by omega] at hget, hvis, hpar⟩
      · rintro ⟨l, hget, hvis, hpar⟩
        exact List.mem_append.mpr (Or.inr (List.mem_append.mpr (Or.inr
          ((renderFrontPass_mem cols rows links 0 k).mpr
            ⟨k, l, hget, by omega, hvis, hpar⟩))))

theorem ovalChain_renderOrder_witness :
    renderChain 64 64 ovalProbeChain =
      [DrawCmd.backHalf 0, DrawCmd.backHalf 2, DrawCmd.fullLink 1,
        DrawCmd.frontHalf 0, DrawCmd.frontHalf 2] ∧
    (0 : Nat) < 2 ∧
    DrawCmd.fullLink 1 ∈ renderChain 64 64 ovalProbeChain := by
  have hv : linkVisible 64 64 ovalProbeLink = true := by
    norm_num [linkVisible, ovalProbeLink, LINK_OUTER_WIDTH, LINK_OUTER_HEIGHT]
  have hchain : renderChain 64 64 ovalProbeChain =
      [DrawCmd.backHalf 0, DrawCmd.backHalf 2, DrawCmd.fullLink 1,
        DrawCmd.frontHalf 0, DrawCmd.frontHalf 2] := by
    simp [renderChain, ovalProbeChain, renderBackPass, renderFullPass,
      renderFrontPass, hv]
  refine ⟨hchain, ?_, ?_⟩
  · exact (ovalChain_renderOrder 64 64 ovalProbeChain).1 0 2 0 1
      (by rw [hchain]; rfl) (by rw [hchain]; rfl)
  · exact ((ovalChain_renderOrder 64 64 ovalProbeChain).2.2.2.2.1 1).mpr
      ⟨ovalProbeLink, by simp [ovalProbeChain], hv, by decide⟩

/-! ### Root-vein generator -/

theorem MRVprocess_segments (render : Except CvError (List (List Pix)))
    (tw th : Int) (s : VeinState) :
    ((MRVprocess render tw th s).2).segments = s.segments := by
  unfold MRVprocess
  split
  · rfl
  · cases render <;> rfl

theorem mrvRun_segments (render : Except CvError (List (List Pix))) :
    ∀ n s, (mrvRun render n s).segments = s.segments := by
  intro n
  induction n with
  | zero => intro s; rfl
  | succ n ih =>
    intro s
    show ((MRVprocess render (-1) (-1) (mrvRun render n s)).2).segments = s.segments
    rw [MRVprocess_segments, ih]

theorem growVeinsGo_length (rf : RealFuns) (rnds : Nat → ℚ) (dt time : ℚ)
    (w h : Int) :
    ∀ (pending done appended : List VeinSegment) (ri : Nat),
      done.length + pending.length + appended.length ≤ MAX_SEGMENTS →
      (growVeinsGo rf rnds dt time w h pending done appended ri).1.length
        + (growVeinsGo rf rnds dt time w h pending done appended ri).2.length
          ≤ MAX_SEGMENTS := by
  intro pending
  induction pending with
  | nil =>
    intro done appended ri hlen
    simp only [growVeinsGo]
    simp only [List.length_nil] at hlen
    omega
  | cons seg pending ih =>
    intro done appended ri hlen
    simp only [List.length_cons] at hlen
    simp only [growVeinsGo]
    split
    · exact ih _ _ _ (by simp only [List.length_append, List.length_singleton]; omega)
    · split
      all_goals
        split
        · exact ih _ _ _ (by simp only [List.length_append, List.length_singleton]; omega)
        · split
          next hc =>
            exact ih _ _ _ (by
              simp only [List.length_append, List.length_singleton]
              omega)
          next hc =>
            exact ih _ _ _ (by simp only [List.length_append, List.length_singleton]; omega)

theorem growVeins_cap (rf : RealFuns) (rnds : Nat → ℚ) (dt : ℚ) (s : VeinState)
    (h : s.segments.length ≤ MAX_SEGMENTS) :
    (growVeins rf rnds dt s).segments.length ≤ MAX_SEGMENTS := by
  unfold growVeins
  simp only [List.length_append]
  exact growVeinsGo_length rf rnds dt s.time s.width s.height s.segments [] [] 0
    (by simpa using h)

theorem markFirstWilting_length :
    ∀ l : List VeinSegment, (markFirstWilting l).length = l.length := by
  intro l
  induction l with
  | nil => rfl
  | cons seg rest ih =>
    simp only [markFirstWilting]
    split
    · simp
    · simp [ih]

theorem spawnBranch_length (rf : RealFuns) (rnds : Nat → ℚ) (ri : Nat)
    (origin : ℚ × ℚ) (d : ℚ) (g : Nat) (segs : List VeinSegment)
    (h : segs.length ≤ MAX_SEGMENTS) :
    (spawnBranch rf rnds ri origin d g segs).length ≤ MAX_SEGMENTS := by
  unfold spawnBranch
  split
  · exact h
  · next hlt =>
    simp only [List.length_append, List.length_singleton]
    omega

theorem spawnFromBranches_length (rf : RealFuns) (rnds : Nat → ℚ) :
    ∀ (branches : List ((ℚ × ℚ) × ℚ)) (ri : Nat) (segs : List VeinSegment),
      segs.length ≤ MAX_SEGMENTS →
      (spawnFromBranches rf rnds branches ri segs).length ≤ MAX_SEGMENTS := by
  intro branches
  induction branches with
  | nil => intro ri segs h; exact h
  | cons b rest ih =>
    intro ri segs h
    obtain ⟨pt, dir0⟩ := b
    simp only [spawnFromBranches]
    split
    · exact ih _ _ (by rw [markFirstWilting_length]; exact h)
    · exact ih _ _ (spawnBranch_length rf rnds ri pt dir0 _ segs h)

theorem checkIntersections_cap (rf : RealFuns) (rnds : Nat → ℚ) (ri : Nat)
    (s : VeinState) (h : s.segments.length ≤ MAX_SEGMENTS) :
    (checkIntersections rf rnds ri s).segments.length ≤ MAX_SEGMENTS := by
  unfold checkIntersections
  split
  · exact h
  · exact spawnFromBranches_length rf rnds _ _ s.segments h

theorem updateWilting_cap (s : VeinState) (h : s.segments.length ≤ MAX_SEGMENTS) :
    (updateWilting s).segments.length ≤ MAX_SEGMENTS := by
  unfold updateWilting
  split
  · refine le_trans (le_trans (List.length_filter_le _ _) ?_) h
    simp [List.length_map]
  · simpa [List.length_map] using h

/-- C5 (amended): the live-segment cap holds after every tick - trivially
for process(), which never mutates the segment network at all, and
structurally for every vein-machinery routine (growth, intersection
branching, wilting), each of which preserves segments.length <=
MAX_SEGMENTS - but no reset exists: process() leaves a tip-less network
unchanged forever instead of regenerating it from fresh corner roots. -/
theorem veinNetwork_cap (render : Except CvError (List (List Pix)))
    (tw th : Int) (sv : VeinState) (rf : RealFuns) (rnds : Nat → ℚ)
    (dt : ℚ) (ri : Nat)
    (hcap : sv.segments.length ≤ MAX_SEGMENTS) :
    ((MRVprocess render tw th sv).2).segments = sv.segments ∧
    ((MRVprocess render tw th sv).2).segments.length ≤ MAX_SEGMENTS ∧
    (growVeins rf rnds dt sv).segments.length ≤ MAX_SEGMENTS ∧
    (checkIntersections rf rnds ri sv).segments.length ≤ MAX_SEGMENTS ∧
    (updateWilting sv).segments.length ≤ MAX_SEGMENTS := by
  refine ⟨MRVprocess_segments render tw th sv, ?_, ?_, ?_, ?_⟩
  · rw [MRVprocess_segments]
    exact hcap
  · exact growVeins_cap rf rnds dt sv hcap
  · exact checkIntersections_cap rf rnds ri sv hcap
  · exact updateWilting_cap sv hcap

theorem veinNetwork_cap_witness :
    deadVeinState.segments.length ≤ MAX_SEGMENTS ∧
    ((MRVprocess (.ok []) (-1) (-1) deadVeinState).2).segments
      = deadVeinState.segments :=
  ⟨by decide,
   (veinNetwork_cap (.ok []) (-1) (-1) deadVeinState rfZero (fun _ => 0) (1/30) 0
      (by decide)).1⟩

/-- C5 counterexample to the reset half of the claim: a network whose
segments all have is_tip = false is fed through more than 2 simulated
seconds of process() ticks (61 ticks at dt = 1/30) and remains exactly the
same single dead segment - it is never reset to the four fresh corner
roots that initializeRootVeins would produce, because process() contains
no reset (or any other vein-network) logic. -/
theorem mandelbrotVeins_noReset_counterexample :
    deadVeinState.segments.all (fun seg => !seg.is_tip) = true ∧
    (mrvRun (.ok []) 61 deadVeinState).segments = [deadSegment] ∧
    (initializeRootVeins rfZero (fun _ => 0) 64 64).length = 4 ∧
    (mrvRun (.ok []) 61 deadVeinState).segments.length ≠
      (initializeRootVeins rfZero (fun _ => 0) 64 64).length := by
  have hseg : (mrvRun (.ok []) 61 deadVeinState).segments = [deadSegment] :=
    mrvRun_segments (.ok []) 61 deadVeinState
  have hinit : (initializeRootVeins rfZero (fun _ => 0) 64 64).length = 4 := by
    simp [initializeRootVeins]
  refine ⟨by decide, hseg, hinit, ?_⟩
  rw [hseg, hinit]
  decide

/-! ### Procedural generator error handling -/

theorem MRVprocess_dims (render : Except CvError (List (List Pix)))
    (tw th : Int) (sv : VeinState) :
    (MRVprocess render tw th sv).1.rows = (procOutputSize tw th sv.width sv.height).1 ∧
    (MRVprocess render tw th sv).1.cols = (procOutputSize tw th sv.width sv.height).2 := by
  simp only [MRVprocess, procOutputSize]
  by_cases h1 : sv.width ≤ 0 ∨ sv.height ≤ 0
  · simp only [if_pos h1]
    exact ⟨rfl, rfl⟩
  · simp only [if_neg h1]
    by_cases h2 : (if tw > 0 then tw else sv.width) ≤ 0 ∨
        (if th > 0 then th else sv.height) ≤ 0
    · simp only [if_pos h2]
      cases render <;> exact ⟨rfl, rfl⟩
    · simp only [if_neg h2]
      cases render <;> exact ⟨rfl, rfl⟩

theorem ovalChainProcess_dims (render : Except CvError (List (List Pix)))
    (tw th : Int) (so : OCState) :
    (ovalChainProcess render tw th so).1.rows
        = (procOutputSize tw th so.width so.height).1 ∧
    (ovalChainProcess render tw th so).1.cols
        = (procOutputSize tw th so.width so.height).2 := by
  simp only [ovalChainProcess, procOutputSize]
  by_cases h1 : so.width ≤ 0 ∨ so.height ≤ 0
  · simp only [if_pos h1]
    exact ⟨rfl, rfl⟩
  · simp only [if_neg h1]
    by_cases h2 : (if tw > 0 then tw else so.width) ≤ 0 ∨
        (if th > 0 then th else so.height) ≤ 0
    · simp only [if_pos h2]
      cases render <;> exact ⟨rfl, rfl⟩
    · simp only [if_neg h2]
      cases render <;> exact ⟨rfl, rfl⟩

theorem MRVprocess_error (e : CvError) (tw th : Int) (sv : VeinState)
    (h : ¬ (sv.width ≤ 0 ∨ sv.height ≤ 0)) :
    (MRVprocess (.error e) tw th sv).1 =
      Frame.zeros (procOutputSize tw th sv.width sv.height).1
        (procOutputSize tw th sv.width sv.height).2 := by
  simp only [MRVprocess, procOutputSize, if_neg h]
  by_cases h2 : (if tw > 0 then tw else sv.width) ≤ 0 ∨
      (if th > 0 then th else sv.height) ≤ 0
  · simp only [if_pos h2]
    rfl
  · simp only [if_neg h2]

theorem ovalChainProcess_error (e : CvError) (tw th : Int) (so : OCState)
    (h : ¬ (so.width ≤ 0 ∨ so.height ≤ 0)) :
    (ovalChainProcess (.error e) tw th so).1 =
      Frame.zeros (procOutputSize tw th so.width so.height).1
        (procOutputSize tw th so.width so.height).2 := by
  simp only [ovalChainProcess, procOutputSize, if_neg h]
  by_cases h2 : (if tw > 0 then tw else so.width) ≤ 0 ∨
      (if th > 0 then th else so.height) ≤ 0
  · simp only [if_pos h2]
    rfl
  · simp only [if_neg h2]

/-- C9 (amended): a cv::Exception thrown inside either procedural
generator's drawing/processing (the try-block body) is caught at that
generator's process() boundary and converted into the all-zero (black)
frame of the expected target size, and every path through these two
generators - success or failure - returns a frame of the expected size.
This fail-safe is local to the two procedural generators: the
motion-driven paths of the core have no such catch (see the stale-history
counterexample below). -/
theorem proceduralProcess_failSafe (render : Except CvError (List (List Pix)))
    (e : CvError) (tw th : Int) (sv : VeinState) (so : OCState) :
    ((MRVprocess render tw th sv).1.rows
        = (procOutputSize tw th sv.width sv.height).1 ∧
      (MRVprocess render tw th sv).1.cols
        = (procOutputSize tw th sv.width sv.height).2) ∧
    (¬ (sv.width ≤ 0 ∨ sv.height ≤ 0) →
      (MRVprocess (.error e) tw th sv).1 =
        Frame.zeros (procOutputSize tw th sv.width sv.height).1
          (procOutputSize tw th sv.width sv.height).2) ∧
    ((ovalChainProcess render tw th so).1.rows
        = (procOutputSize tw th so.width so.height).1 ∧
      (ovalChainProcess render tw th so).1.cols
        = (procOutputSize tw th so.width so.height).2) ∧
    (¬ (so.width ≤ 0 ∨ so.height ≤ 0) →
      (ovalChainProcess (.error e) tw th so).1 =
        Frame.zeros (procOutputSize tw th so.width so.height).1
          (procOutputSize tw th so.width so.height).2) :=
  ⟨MRVprocess_dims render tw th sv,
   fun h => MRVprocess_error e tw th sv h,
   ovalChainProcess_dims render tw th so,
   fun h => ovalChainProcess_error e tw th so h⟩

theorem proceduralProcess_failSafe_witness :
    (¬ ((64 : Int) ≤ 0 ∨ (64 : Int) ≤ 0)) ∧
    (MRVprocess (.error .sizeMismatch) (-1) (-1) deadVeinState).1 =
      Frame.zeros (procOutputSize (-1) (-1) 64 64).1 (procOutputSize (-1) (-1) 64 64).2 ∧
    (ovalChainProcess (.error .sizeMismatch) 32 16 ⟨0, 64, 64⟩).1 =
      Frame.zeros (procOutputSize 32 16 64 64).1 (procOutputSize 32 16 64 64).2 :=
  ⟨by decide,
   (proceduralProcess_failSafe (.error .sizeMismatch) .sizeMismatch (-1) (-1)
      deadVeinState ⟨0, 64, 64⟩).2.1 (by decide),
   (proceduralProcess_failSafe (.error .sizeMismatch) .sizeMismatch 32 16
      deadVeinState ⟨0, 64, 64⟩).2.2.2 (by decide)⟩

/-- C9 counterexample to the universal clause: not every failure path
inside the core degrades to a valid, correctly-sized output frame.  The
catch exists only at the two procedural generators' process() boundaries;
AppCore itself has no try/catch, so when processDoubleExposureWithState
reaches cv::addWeighted with a stale, differently-sized ring-buffer frame
(thirty 16x16 frames in display mode 7, then one 32x32 frame), the
cv::Exception escapes the core, no output frame of any size is produced,
and the frame loop of every runner lets it terminate the process. -/
theorem coreFailSafe_counterexample :
    ∃ e : CvError, runProcessFrames (fun _ => staleOracles) staleRunFrames
      staleRunInit = .error e :=
  ⟨.sizeMismatch, by decide⟩

/-! ### The processFrame contract -/

/-- C1 (evaluation at the failing input): thirty equal-size frames in
display mode 7 followed by one frame of a different size make processFrame
reach cv::addWeighted with the current frame and a stale, differently-sized
ring-buffer frame (ensureSize reallocates only the silhouette and
trail-age buffers, never frame_history_), so the call throws instead of
writing a same-size output - contradicting the header's contract that the
core adapts its internal buffers to a changed input size. -/
theorem processFrame_staleHistory_error :
    runProcessFrames (fun _ => staleOracles) staleRunFrames staleRunInit
      = .error .sizeMismatch := by
  decide

/-- C10: an empty input frame makes processFrame return immediately: the
output is never written and the entire AppCore state (auto-cycle counters,
transition state, buffers, ring-buffer indices, dimensions) is unchanged. -/
theorem processFrame_emptyInput (orc : CvOracles) (inBgr : Frame) (s : AppState)
    (h : inBgr.isEmpty = true) :
    processFrame orc inBgr s = .ok (none, s) := by
  unfold processFrame
  rw [if_pos h]

theorem processFrame_emptyInput_witness :
    (Frame.mk 0 0 []).isEmpty = true ∧
    processFrame staleOracles ⟨0, 0, []⟩ (AppCore_init 8 8 1)
      = .ok (none, AppCore_init 8 8 1) :=
  ⟨rfl, processFrame_emptyInput staleOracles ⟨0, 0, []⟩ (AppCore_init 8 8 1) rfl⟩

/-! ### SystemMode / Effect validity -/

theorem defaultEffect_mem (m : SystemMode) :
    getDefaultEffectForMode m ∈ validEffectsForMode m := by
  cases m <;> decide

theorem mem_of_effectValid (e : Effect) (m : SystemMode)
    (h : isEffectValidForMode e m = true) : e ∈ validEffectsForMode m := by
  revert h
  cases m <;> cases e <;> decide

theorem readEffect_mem (t : ModeState) :
    (readEffect t).2.effect ∈ validEffectsForMode (readEffect t).2.mode := by
  unfold readEffect
  split
  · next h => exact mem_of_effectValid _ _ h
  · exact defaultEffect_mem t.mode

theorem processFrameModes_eq_read (rng : Nat) (s : ModeState) :
    ∃ t, processFrameModes rng s = readEffect t :=
  ⟨_, rfl⟩

/-- C2: after every processFrame of the mode/effect state machine the
active Effect is a member of the current SystemMode's valid-effect list,
and a stored Effect that is not valid for the active SystemMode is
silently replaced by the mode's default the next time it is read - the
read returns the default, the stored current effect is rewritten to it,
and no error value exists on this path. -/
theorem systemMode_effect_invariant (rng : Nat) (s : ModeState) :
    ((processFrameModes rng s).2.effect ∈
      validEffectsForMode (processFrameModes rng s).2.mode) ∧
    (isEffectValidForMode s.effect s.mode = false →
      (readEffect s).1 = getDefaultEffectForMode s.mode ∧
      (readEffect s).2.effect = getDefaultEffectForMode s.mode) := by
  constructor
  · obtain ⟨t, ht⟩ := processFrameModes_eq_read rng s
    rw [ht]
    exact readEffect_mem t
  · intro h
    unfold readEffect
    rw [if_neg (by simp [h])]
    exact ⟨rfl, rfl⟩

theorem systemMode_effect_invariant_witness :
    (isEffectValidForMode modeProbeState.effect modeProbeState.mode = false) ∧
    ((processFrameModes 0 modeProbeState).2.effect ∈
      validEffectsForMode (processFrameModes 0 modeProbeState).2.mode) ∧
    ((readEffect modeProbeState).1 = Effect.proceduralShapes ∧
      (readEffect modeProbeState).2.effect = Effect.proceduralShapes) :=
  ⟨by decide,
   (systemMode_effect_invariant 0 modeProbeState).1,
   (systemMode_effect_invariant 0 modeProbeState).2 (by decide)⟩
